import Mathlib

/-!
Verification of the tg-file-downloader download orchestration engine.

The definitions below are a shallow embedding of the TypeScript sources:
  - src/types (data model: DownloadStatus, TelegramGroup, FileEntry, Statistics, DataFile)
  - src/storage/data-file.ts (createDataFile, updateStatistics, loadDataFile,
    saveDataFile, findLatestBackup, upsertGroup, upsertFile)
  - src/storage/encryption.ts (deriveKey, encrypt, decrypt)
  - src/download/downloader.ts (downloadFile, downloadFileWithRetry)
  - src/download/manager.ts (DownloadManager: getFilesToDownload,
    downloadWithConcurrency, downloadSingleFile, updateFileStatus)
  - src/utils/file.ts (sanitizeFilename)

Effectful operations (filesystem, network, clock) are modelled by passing the
environment explicitly; JavaScript `Date` timestamps become explicit `now`
string parameters, and fallible operations return `Except`.
-/

namespace TgFileDownloader

/-- `DownloadStatus` from src/types: pending | in-progress | completed | failed. -/
inductive DownloadStatus where
  | pending
  | inProgress
  | completed
  | failed
deriving DecidableEq, Repr

/-- `GroupType` from src/types. -/
inductive GroupType where
  | group
  | channel
  | supergroup
deriving DecidableEq, Repr

/-- `TelegramGroup` from src/types. Optional fields become `Option`. -/
structure TelegramGroup where
  id : String
  handle : Option String
  name : String
  type : GroupType
  memberCount : Option Nat
  accessHash : String
  discoveredAt : String
deriving DecidableEq, Repr

/-- `FileEntry` from src/types. `size` is in bytes. -/
structure FileEntry where
  id : String
  groupId : String
  name : String
  size : Nat
  mimeType : Option String
  extension : Option String
  telegramFileId : String
  messageId : Nat
  uploadedAt : Option String
  discoveredAt : String
  downloadStatus : DownloadStatus
  downloadedAt : Option String
  downloadPath : Option String
  errorMessage : Option String
deriving DecidableEq, Repr

/-- `Statistics` from src/types. -/
structure Statistics where
  totalGroups : Nat
  totalFiles : Nat
  totalSize : Nat
  pendingFiles : Nat
  completedFiles : Nat
  failedFiles : Nat
  totalDownloadedSize : Nat
deriving DecidableEq, Repr

/-- `DataFile` from src/types (the JobStore snapshot). -/
structure DataFile where
  version : String
  createdAt : String
  lastUpdatedAt : String
  groups : List TelegramGroup
  files : List FileEntry
  statistics : Statistics
deriving DecidableEq, Repr

/-- `DATA_VERSION` constant from src/storage/data-file.ts. -/
def DATA_VERSION : String := "1.0.0"

/-- JavaScript string truthiness: `undefined` and the empty string are falsy.
Used where the source tests an optional string with `if (x)` or `x || d`. -/
def truthyStr : Option String → Bool
  | none => false
  | some s => decide (s ≠ "")

/-- JavaScript truthiness of an optional boolean (`undefined` is falsy). -/
def truthyBool : Option Bool → Bool
  | none => false
  | some b => b

/-- JavaScript `x || d` for an optional number: `undefined` and `0` are falsy. -/
def jsOrNat (x : Option Nat) (d : Nat) : Nat :=
  match x with
  | none => d
  | some v => if v = 0 then d else v

/-- JavaScript `x || d` for an optional string: `undefined` and `""` are falsy. -/
def jsOrStr (x : Option String) (d : String) : String :=
  match x with
  | none => d
  | some s => if s = "" then d else s

/-- `createDataFile` from src/storage/data-file.ts: fresh empty snapshot with
zeroed statistics; `now` models `new Date().toISOString()`. -/
def createDataFile (now : String) : DataFile :=
  { version := DATA_VERSION
    createdAt := now
    lastUpdatedAt := now
    groups := []
    files := []
    statistics :=
      { totalGroups := 0
        totalFiles := 0
        totalSize := 0
        pendingFiles := 0
        completedFiles := 0
        failedFiles := 0
        totalDownloadedSize := 0 } }

/-- `updateStatistics` from src/storage/data-file.ts: recomputes the statistics
block from the current `groups`/`files` collections and refreshes
`lastUpdatedAt`. `reduce((sum, file) => sum + file.size, 0)` becomes `foldl`. -/
def updateStatistics (now : String) (dataFile : DataFile) : DataFile :=
  let statistics : Statistics :=
    { totalGroups := dataFile.groups.length
      totalFiles := dataFile.files.length
      totalSize := dataFile.files.foldl (fun sum file => sum + file.size) 0
      pendingFiles := (dataFile.files.filter (fun f => f.downloadStatus == .pending)).length
      completedFiles := (dataFile.files.filter (fun f => f.downloadStatus == .completed)).length
      failedFiles := (dataFile.files.filter (fun f => f.downloadStatus == .failed)).length
      totalDownloadedSize :=
        (dataFile.files.filter (fun f => f.downloadStatus == .completed)).foldl
          (fun sum file => sum + file.size) 0 }
  { dataFile with statistics := statistics, lastUpdatedAt := now }

/-- `upsertGroup` from src/storage/data-file.ts: replace by `id`, else append. -/
def upsertGroup (dataFile : DataFile) (group : TelegramGroup) : DataFile :=
  match dataFile.groups.findIdx? (fun g => g.id == group.id) with
  | some i => { dataFile with groups := dataFile.groups.set i group }
  | none => { dataFile with groups := dataFile.groups ++ [group] }

/-- `upsertFile` from src/storage/data-file.ts: on an existing id, the incoming
entry replaces the stored one except that `downloadStatus`, `downloadedAt`,
`downloadPath` and `errorMessage` are preserved from the stored record;
otherwise the entry is appended. The inner match on `files[i]?` mirrors
`dataFile.files[existingIndex]`, which is in bounds whenever `findIndex`
returned a non-negative index. -/
def upsertFile (dataFile : DataFile) (file : FileEntry) : DataFile :=
  match dataFile.files.findIdx? (fun f => f.id == file.id) with
  | some i =>
    match dataFile.files[i]? with
    | some existingFile =>
      let merged : FileEntry :=
        { file with
            downloadStatus := existingFile.downloadStatus
            downloadedAt := existingFile.downloadedAt
            downloadPath := existingFile.downloadPath
            errorMessage := existingFile.errorMessage }
      { dataFile with files := dataFile.files.set i merged }
    | none => dataFile
  | none => { dataFile with files := dataFile.files ++ [file] }

/-- The field mutations `DownloadManager.updateFileStatus` applies to the
entry found by `findIndex`. The `if (downloadPath)` and `if (errorMessage)`
guards are JavaScript truthiness tests, so an empty string behaves like an
absent argument; setting a truthy `downloadPath` also stamps `downloadedAt`
with the current time `now`. -/
def patchEntry (now : String) (status : DownloadStatus)
    (downloadPath errorMessage : Option String) (f : FileEntry) : FileEntry :=
  let f := { f with downloadStatus := status }
  let f := if truthyStr downloadPath then
             { f with downloadPath := downloadPath, downloadedAt := some now }
           else f
  if truthyStr errorMessage then { f with errorMessage := errorMessage } else f

/-- The `findIndex`-then-assign idiom shared by the mutating operations of
src/storage/data-file.ts and src/download/manager.ts: apply `g` to the first
entry satisfying `q`, leave the rest unchanged (a missing match leaves the
list unchanged; the inner lookup is in bounds whenever `findIndex` found an
index). -/
def setFirst (q : FileEntry → Bool) (g : FileEntry → FileEntry)
    (l : List FileEntry) : List FileEntry :=
  match l.findIdx? q with
  | some i =>
    match l[i]? with
    | some f => l.set i (g f)
    | none => l
  | none => l

/-- `DownloadManager.updateFileStatus` from src/download/manager.ts. -/
def updateFileStatus (now : String) (dataFile : DataFile) (fileId : String)
    (status : DownloadStatus) (downloadPath : Option String)
    (errorMessage : Option String) : DataFile :=
  { dataFile with
      files := setFirst (fun f => f.id == fileId)
        (patchEntry now status downloadPath errorMessage) dataFile.files }

/-! ### SecretStore (src/storage/encryption.ts)

Strings manipulated by `encrypt`/`decrypt` are modelled as `List Char`, so the
JavaScript `split(':')` and concatenations are explicit list operations.
The Node `Buffer` base64 codec is embedded concretely (`b64Encode`,
`b64Decode`); the AES-256-GCM cipher and PBKDF2 key derivation are external
library primitives, modelled from the spec as an ideal AEAD (see below). -/

/-- The base64 alphabet used by Node `Buffer.toString('base64')`. -/
def b64Chars : List Char :=
  "ABCDEFGHIJKLMNOPQRSTUVWXYZabcdefghijklmnopqrstuvwxyz0123456789+/".data

/-- The base64 digit for a 6-bit group. -/
def b64Char (n : Nat) : Char := b64Chars.getD n 'A'

/-- Index of a base64 digit in the alphabet. -/
def b64Index (c : Char) : Nat := b64Chars.findIdx (fun x => x == c)

/-- Standard base64 encoding of a byte list (three bytes to four digits,
`=`-padded tail). -/
def b64Encode : List Nat → List Char
  | [] => []
  | [b1] => [b64Char (b1 / 4), b64Char (b1 % 4 * 16), '=', '=']
  | [b1, b2] => [b64Char (b1 / 4), b64Char (b1 % 4 * 16 + b2 / 16), b64Char (b2 % 16 * 4), '=']
  | b1 :: b2 :: b3 :: rest =>
    b64Char (b1 / 4) :: b64Char (b1 % 4 * 16 + b2 / 16) ::
      b64Char (b2 % 16 * 4 + b3 / 64) :: b64Char (b3 % 64) :: b64Encode rest

/-- Standard base64 decoding (inverse of `b64Encode` on valid byte input). -/
def b64Decode : List Char → List Nat
  | c1 :: c2 :: c3 :: c4 :: rest =>
    if c3 = '=' then [b64Index c1 * 4 + b64Index c2 / 16]
    else if c4 = '=' then
      [b64Index c1 * 4 + b64Index c2 / 16, b64Index c2 % 16 * 16 + b64Index c3 / 4]
    else
      (b64Index c1 * 4 + b64Index c2 / 16) ::
        (b64Index c2 % 16 * 16 + b64Index c3 / 4) ::
        (b64Index c3 % 4 * 64 + b64Index c4) :: b64Decode rest
  | _ => []

/-- JavaScript `String.prototype.split(':')` on a character list: returns the
(non-empty) list of `':'`-free segments. -/
def splitOnColon : List Char → List (List Char)
  | [] => [[]]
  | c :: rest =>
    match splitOnColon rest with
    | [] => if c = ':' then [[], []] else [[c]]
    | p :: ps => if c = ':' then [] :: p :: ps else (c :: p) :: ps

/-- Serialization of a character to three bytes (big-endian code point).
Modelled from the spec: the byte-level text codec used by the cipher streams
(`cipher.update(data, 'utf-8')`) is an external primitive; any injective
text-to-bytes codec is a faithful model of it for the properties claimed. -/
def charToBytes (c : Char) : List Nat :=
  [c.toNat / 65536, c.toNat / 256 % 256, c.toNat % 256]

/-- Byte serialization of a character list (see `charToBytes`). -/
def strBytes : List Char → List Nat
  | [] => []
  | c :: rest => charToBytes c ++ strBytes rest

/-- Inverse of `strBytes`: groups of three bytes back to characters. -/
def bytesChars : List Nat → List Char
  | b1 :: b2 :: b3 :: rest => Char.ofNat (b1 * 65536 + b2 * 256 + b3) :: bytesChars rest
  | _ => []

/-- Modelled from the spec: `getMachineId()` in src/storage/encryption.ts
hashes hostname plus MAC addresses; its value is environment-dependent, so it
is modelled as an abstract constant hex string. -/
def machineId : String := "9f2c7a1e5b8d40c3a6e9d2f7b4a1c8e5"

/-- The PBKDF2 key material chosen by `deriveKey`: `password || machineId`
(JavaScript `||`, so an absent or empty password falls back to the machine
id). -/
def keyMaterial (password : Option String) : String :=
  jsOrStr password machineId

/-- Modelled from the spec: `crypto.pbkdf2Sync(keyMaterial, salt, 100000, 32,
'sha256')` is an external primitive; it is modelled as an ideal (injective)
key-derivation function, represented by the key material itself under the
fixed machine salt. -/
def deriveKey (password : Option String) : String :=
  keyMaterial password

/-- Modelled from the spec: the AES-256-GCM authentication tag is an external
primitive; it is modelled ideally as a value determined by (and, for a fixed
iv and ciphertext, injective in) the key. -/
def gcmTag (key : String) (iv : List Nat) (ct : List Nat) : List Nat :=
  strBytes key.data ++ iv ++ ct

/-- Modelled from the spec: the AES-256-GCM keystream application is an
external primitive; the ideal model keeps the ciphertext bytes as the
serialized plaintext (the claims under verification are functional round-trip
and authentication properties, not secrecy). -/
def gcmCipherBytes (data : List Char) : List Nat :=
  strBytes data

/-- `encrypt` from src/storage/encryption.ts: derives the key, encrypts under
a fresh 128-bit iv (passed explicitly here, modelling `crypto.randomBytes`),
and returns `base64(iv) ++ ":" ++ base64(authTag) ++ ":" ++ base64(ct)`. -/
def encrypt (data : List Char) (password : Option String) (iv : List Nat) : List Char :=
  let key := deriveKey password
  let ct := gcmCipherBytes data
  let authTag := gcmTag key iv ct
  b64Encode iv ++ ':' :: (b64Encode authTag ++ ':' :: b64Encode ct)

/-- `SecretError` outcomes of `decrypt`. -/
inductive CryptoError where
  | malformedCiphertext
  | authenticationFailure
deriving DecidableEq, Repr

/-- `decrypt` from src/storage/encryption.ts: splits on `':'`, rejects any
shape other than exactly three parts (`Invalid encrypted data format`),
base64-decodes the parts, re-derives the key and decrypts with tag
verification; `decipher.final()` fails when the tag does not authenticate. -/
def decrypt (encryptedData : List Char) (password : Option String) :
    Except CryptoError (List Char) :=
  let key := deriveKey password
  match splitOnColon encryptedData with
  | [ivB64, authTagB64, encryptedB64] =>
    let iv := b64Decode ivB64
    let authTag := b64Decode authTagB64
    let encrypted := b64Decode encryptedB64
    if authTag = gcmTag key iv encrypted then .ok (bytesChars encrypted)
    else .error .authenticationFailure
  | _ => .error .malformedCiphertext

/-! ### Configuration (src/types/config.ts) -/

/-- `DownloadSettings` from src/types/config.ts; every field is optional. -/
structure DownloadSettings where
  outputDir : Option String
  organizeByGroup : Option Bool
  overwriteExisting : Option Bool
  chunkSize : Option Nat
  concurrency : Option Nat
  retryAttempts : Option Nat
  retryDelay : Option Nat
deriving DecidableEq, Repr

/-- `Configuration` from src/types/config.ts, restricted to the `download`
section (the `groups`/`files`/`session` sections are not consumed by the
download engine under verification). -/
structure Configuration where
  download : Option DownloadSettings
deriving DecidableEq, Repr

/-! ### File utilities (src/utils/file.ts) -/

/-- The character class `[<>:"/\\|?*\x00-\x1f]` from `sanitizeFilename`. -/
def isInvalidFilenameChar (c : Char) : Bool :=
  c = '<' || c = '>' || c = ':' || c = '"' || c = '/' || c = '\\' ||
    c = '|' || c = '?' || c = '*' || decide (c.toNat ≤ 0x1f)

/-- JavaScript regular-expression `\s` (ECMAScript WhiteSpace and
LineTerminator code points). -/
def isJsWhitespace (c : Char) : Bool :=
  (decide (9 ≤ c.toNat) && decide (c.toNat ≤ 13)) || c.toNat == 32 ||
    c.toNat == 160 || c.toNat == 5760 ||
    (decide (8192 ≤ c.toNat) && decide (c.toNat ≤ 8202)) ||
    c.toNat == 8232 || c.toNat == 8233 || c.toNat == 8239 ||
    c.toNat == 8287 || c.toNat == 12288 || c.toNat == 65279

/-- `.replace(/\s+/g, '_')`: each maximal whitespace run becomes one `'_'`. -/
def collapseWhitespace : List Char → List Char
  | [] => []
  | c :: rest =>
    if isJsWhitespace c then '_' :: collapseWhitespace (rest.dropWhile isJsWhitespace)
    else c :: collapseWhitespace rest
termination_by l => l.length
decreasing_by
  · have := (List.dropWhile_sublist (l := rest) isJsWhitespace).length_le
    simp only [List.length_cons]
    omega
  · simp

/-- `sanitizeFilename` from src/utils/file.ts: replace invalid filesystem
characters with `'_'`, strip leading dots, collapse whitespace runs to `'_'`,
cap at 255 characters. -/
def sanitizeFilename (filename : String) : String :=
  let replaced := filename.data.map (fun c => if isInvalidFilenameChar c then '_' else c)
  let noLeadingDots := replaced.dropWhile (fun c => c = '.')
  let collapsed := collapseWhitespace noLeadingDots
  String.mk (collapsed.take 255)

/-- `path.join(a, b)` as used by the downloader (both arguments are plain
relative segments, so no normalization beyond inserting the separator is
observable). -/
def joinPath (a b : String) : String := a ++ "/" ++ b

/-! ### TransferExecutor (src/download/downloader.ts)

`downloadFile` is embedded as a pure function of the job, the configuration
and a `TransferEnv` describing how the remote collaborator and the local
filesystem respond during this attempt. Its value records, besides the
`DownloadResult` the source returns, the `code` of the `DownloadError` thrown
inside the attempt (if any) and whether the `.part` temp file exists and the
final path was created once the attempt is over. -/

/-- `DownloadResult` from src/download/downloader.ts. -/
structure DownloadResult where
  success : Bool
  file : FileEntry
  downloadPath : Option String
  error : Option String
deriving DecidableEq, Repr

/-- How the collaborators respond during one `downloadFile` attempt. -/
structure TransferEnv where
  /-- `fs.access(outputPath)` succeeds (the final path already exists). -/
  finalExists : Bool
  /-- `client.getEntity(parseInt(groupId))` resolves. -/
  entityFound : Bool
  /-- `client.getMessages` returns a non-empty list. -/
  messageFound : Bool
  /-- `msg.media instanceof Api.MessageMediaDocument`. -/
  isDocument : Bool
  /-- `client.downloadMedia` result: `none` for a null buffer, otherwise the
  byte length that `fs.writeFile` writes and `fs.stat` then reports. -/
  buffer : Option Nat
deriving DecidableEq, Repr

/-- Observable value of one `downloadFile` attempt. -/
structure TransferOutcome where
  result : DownloadResult
  /-- `code` of the `DownloadError` thrown inside this attempt, if any. -/
  thrownCode : Option String
  /-- whether `<outputPath>.part` still exists after the attempt (a created
  temp file is deleted in the inner catch before the error is re-raised, and
  renamed away on success). -/
  tempExistsAfter : Bool
  /-- whether this attempt created the final output path (the temp-to-final
  rename). -/
  finalCreatedByAttempt : Bool
deriving DecidableEq, Repr

/-- Message of the `ENTITY_NOT_FOUND` `DownloadError`. -/
def entityNotFoundMessage (groupId : String) : String :=
  "Could not find group with ID " ++ groupId ++
    ". The group may have been deleted or access was revoked."

/-- Message of the `MESSAGE_NOT_FOUND` `DownloadError`. -/
def messageNotFoundMessage (fileId : String) : String :=
  "Message not found for file " ++ fileId

/-- Message of the `NOT_A_DOCUMENT` `DownloadError`. -/
def notADocumentMessage (fileId : String) : String :=
  "Message does not contain a document for file " ++ fileId

/-- Message of the `DOWNLOAD_FAILED` `DownloadError`. -/
def downloadFailedMessage (fileId : String) : String :=
  "Failed to download file " ++ fileId

/-- Message of the `SIZE_MISMATCH` `DownloadError`. -/
def sizeMismatchMessage (written expected : Nat) (fileId : String) : String :=
  "Downloaded size (" ++ toString written ++ ") does not match expected size (" ++
    toString expected ++ ") for file " ++ fileId

/-- A failed `downloadFile` attempt: the thrown `DownloadError` is caught by
the outer catch, which returns `success: false` with the error message; the
inner catch has already best-effort deleted the temp file. -/
def failureOutcome (file : FileEntry) (code : String) (message : String) : TransferOutcome :=
  { result := { success := false, file := file, downloadPath := none, error := some message }
    thrownCode := some code
    tempExistsAfter := false
    finalCreatedByAttempt := false }

/-- The output path computed by `downloadFile`: optional per-group directory
under `outputDir || './data/downloads'`, then the sanitized filename. -/
def downloadOutputPath (config : Configuration) (file : FileEntry) (groupHandle : String) : String :=
  let baseDir := jsOrStr (config.download.bind (fun d => d.outputDir)) "./data/downloads"
  let outputDir :=
    if truthyBool (config.download.bind (fun d => d.organizeByGroup)) then
      joinPath baseDir (sanitizeFilename (jsOrStr (some groupHandle) file.groupId))
    else baseDir
  joinPath outputDir (sanitizeFilename file.name)

/-- `downloadFile` from src/download/downloader.ts: idempotent skip when the
final path exists and overwriting is disabled; otherwise entity, message,
document and buffer checks, temp write, size verification against
`file.size`, and temp-to-final rename; every thrown `DownloadError` ends as a
`success: false` result after temp cleanup. -/
def downloadFile (env : TransferEnv) (file : FileEntry) (groupHandle : String)
    (config : Configuration) : TransferOutcome :=
  let outputPath := downloadOutputPath config file groupHandle
  if !truthyBool (config.download.bind (fun d => d.overwriteExisting)) && env.finalExists then
    { result := { success := true, file := file, downloadPath := some outputPath, error := none }
      thrownCode := none
      tempExistsAfter := false
      finalCreatedByAttempt := false }
  else if !env.entityFound then
    failureOutcome file "ENTITY_NOT_FOUND" (entityNotFoundMessage file.groupId)
  else if !env.messageFound then
    failureOutcome file "MESSAGE_NOT_FOUND" (messageNotFoundMessage file.id)
  else if !env.isDocument then
    failureOutcome file "NOT_A_DOCUMENT" (notADocumentMessage file.id)
  else
    match env.buffer with
    | none => failureOutcome file "DOWNLOAD_FAILED" (downloadFailedMessage file.id)
    | some writtenSize =>
      if writtenSize ≠ file.size then
        failureOutcome file "SIZE_MISMATCH" (sizeMismatchMessage writtenSize file.size file.id)
      else
        { result := { success := true, file := file, downloadPath := some outputPath, error := none }
          thrownCode := none
          tempExistsAfter := false
          finalCreatedByAttempt := true }

/-! ### RetryPolicy (src/download/downloader.ts, downloadFileWithRetry) -/

/-- The terminal failure message after exhausting all attempts. -/
def retryFailMessage (maxAttempts : Nat) : String :=
  "Failed after " ++ toString maxAttempts ++ " attempts"

/-- The `for (attempt = 1; attempt <= maxAttempts; attempt++)` loop of
`downloadFileWithRetry`. `envs` gives the collaborator behaviour of each
attempt, `remaining = maxAttempts - attempt + 1` counts the iterations left.
Besides the source's `DownloadResult`, the value records (for verification)
the index of the last attempt performed and the list of inter-attempt delays
that were slept. -/
def retryLoop (envs : Nat → TransferEnv) (file : FileEntry) (groupHandle : String)
    (config : Configuration) (retryDelay maxAttempts attempt remaining : Nat) :
    DownloadResult × Nat × List Nat :=
  match remaining with
  | 0 =>
    ({ success := false, file := file, downloadPath := none
       error := some (retryFailMessage maxAttempts) }, attempt - 1, [])
  | remaining' + 1 =>
    let result := (downloadFile (envs attempt) file groupHandle config).result
    if result.success then (result, attempt, [])
    else
      match remaining' with
      | 0 =>
        ({ success := false, file := file, downloadPath := none
           error := some (retryFailMessage maxAttempts) }, attempt, [])
      | _ + 1 =>
        let r := retryLoop envs file groupHandle config retryDelay maxAttempts
          (attempt + 1) remaining'
        (r.1, r.2.1, retryDelay :: r.2.2)

/-- `config.download?.retryAttempts || 3` from `downloadFileWithRetry`. -/
def runRetryAttempts (config : Configuration) : Nat :=
  jsOrNat (config.download.bind (fun d => d.retryAttempts)) 3

/-- `config.download?.retryDelay || 5000` from `downloadFileWithRetry`. -/
def runRetryDelay (config : Configuration) : Nat :=
  jsOrNat (config.download.bind (fun d => d.retryDelay)) 5000

/-- `downloadFileWithRetry` from src/download/downloader.ts:
`retryAttempts || 3` bounded attempts with a fixed `retryDelay || 5000`
millisecond sleep between consecutive attempts. -/
def downloadFileWithRetry (envs : Nat → TransferEnv) (file : FileEntry)
    (groupHandle : String) (config : Configuration) : DownloadResult × Nat × List Nat :=
  retryLoop envs file groupHandle config (runRetryDelay config) (runRetryAttempts config)
    1 (runRetryAttempts config)

/-! ### JobStore persistence (src/storage/data-file.ts, src/utils/file.ts)

`saveDataFile` serializes `updateStatistics(dataFile)` with `JSON.stringify`
and writes it atomically; `loadDataFile` parses the bytes back. The JSON codec
is an external primitive whose parse is a left inverse of serialization, so
the persisted content is modelled as the `DataFile` value itself. -/

/-- The snapshot value that `saveDataFile` persists at the target path:
statistics and `lastUpdatedAt` are recomputed at save time (`updateStatistics`)
before writing. -/
def saveDataFile (now : String) (dataFile : DataFile) : DataFile :=
  updateStatistics now dataFile

/-- Result of `fs.readFile` plus `JSON.parse` on the primary snapshot. -/
inductive ReadOutcome where
  /-- `fs.readFile` threw (not a `SyntaxError`). -/
  | ioError
  /-- the content exists but `JSON.parse` threw a `SyntaxError`. -/
  | invalidJson
  /-- the content parses to this snapshot. -/
  | parsed (df : DataFile)
deriving Repr

/-- Filesystem as seen by one `loadDataFile` call. Filenames are `List Char`. -/
structure LoadEnv where
  /-- target path: `none` when `fileExists` is false. -/
  fileContent : Option ReadOutcome
  /-- `fs.readdir(dir)`: `none` when it throws (caught, backup search yields
  null). -/
  dirListing : Option (List (List Char))
  /-- reading and parsing a backup file: `none` when `readFile` or
  `JSON.parse` throws. -/
  backupContent : List Char → Option DataFile

/-- Errors propagating out of `loadDataFile`. -/
inductive LoadError where
  /-- a non-`SyntaxError` read failure, re-thrown unchanged. -/
  | ioError
  /-- the original `SyntaxError`, re-thrown when no backup is found. -/
  | syntaxError
  /-- a failure while reading or parsing the chosen backup. -/
  | backupError
deriving DecidableEq, Repr

/-- JavaScript `String.prototype.startsWith`. -/
def strStartsWith : List Char → List Char → Bool
  | _, [] => true
  | [], _ :: _ => false
  | c :: cs, p :: ps => c == p && strStartsWith cs ps

/-- The default `Array.prototype.sort` comparator: lexicographic comparison
of strings by code unit. -/
def lexLe : List Char → List Char → Bool
  | [], _ => true
  | _ :: _, [] => false
  | a :: as, b :: bs => if a < b then true else if b < a then false else lexLe as bs

/-- `Array.prototype.sort()` on filenames: the default comparator sorts
lexicographically by code unit; modelled as a stable insertion sort computing
the same ordered permutation. -/
def sortFilenames (files : List (List Char)) : List (List Char) :=
  List.insertionSort (fun a b => lexLe a b = true) files

/-- `findLatestBackup` from src/storage/data-file.ts: among the directory
entries whose name starts with `<basename>.backup.`, sort ascending, reverse,
take the head. The source joins each name with the directory before sorting;
since all joined paths share the directory prefix, the ordering and the
selected element correspond to the same filename, which this model returns. -/
def findLatestBackup (basename : List Char) (dirListing : Option (List (List Char))) :
    Option (List Char) :=
  match dirListing with
  | none => none
  | some files =>
    let backups := files.filter (fun f => strStartsWith f (basename ++ (".backup.").data))
    ((sortFilenames backups).reverse).head?

/-- `loadDataFile` from src/storage/data-file.ts: absent file yields a fresh
empty snapshot; a `SyntaxError` triggers backup recovery; a backup read or
parse failure, a missing backup, or a non-`SyntaxError` read failure
propagate. -/
def loadDataFile (now : String) (basename : List Char) (env : LoadEnv) :
    Except LoadError DataFile :=
  match env.fileContent with
  | none => .ok (createDataFile now)
  | some .ioError => .error .ioError
  | some .invalidJson =>
    match findLatestBackup basename env.dirListing with
    | some backupPath =>
      match env.backupContent backupPath with
      | some df => .ok df
      | none => .error .backupError
    | none => .error .syntaxError
  | some (.parsed df) => .ok df

/-! ### Scheduler (src/download/manager.ts) -/

/-- `DownloadStats` from src/download/manager.ts. -/
structure DownloadStats where
  total : Nat
  completed : Nat
  failed : Nat
  skipped : Nat
  totalSize : Nat
  downloadedSize : Nat
deriving DecidableEq, Repr

/-- The stats object initialized in the `DownloadManager` constructor. -/
def initialStats : DownloadStats :=
  { total := 0, completed := 0, failed := 0, skipped := 0, totalSize := 0, downloadedSize := 0 }

/-- `DownloadManager.getFilesToDownload`: resume mode selects `pending` and
`failed` jobs, default mode only `pending`. -/
def getFilesToDownload (resumeExisting : Bool) (dataFile : DataFile) : List FileEntry :=
  if resumeExisting then
    dataFile.files.filter (fun f => f.downloadStatus == .pending || f.downloadStatus == .failed)
  else
    dataFile.files.filter (fun f => f.downloadStatus == .pending)

/-- Environment of one `downloadSingleFile` call: timestamps of its status
transitions and the outcomes of its awaited operations. A `.error` value
models a rejected promise (for the saves: a `saveDataFile` failure, which that
function logs and re-throws). -/
structure JobEnv where
  nowStart : String
  save1 : Except String Unit
  result : Except String DownloadResult
  nowOutcome : String
  save2 : Except String Unit
  nowCatch : String

/-- `DownloadManager.downloadSingleFile`: marks the job `in-progress`,
persists, runs `downloadFileWithRetry`, records the outcome, persists again.
The whole body sits in a `try`/`catch` whose handler records any error —
including a `saveDataFile` failure — as a failed status with the error
message and increments `stats.failed`; the codomain is `Except` to make the
absence of propagated exceptions provable. -/
def downloadSingleFile (env : JobEnv) (file : FileEntry) (dataFile : DataFile)
    (stats : DownloadStats) : Except String (DataFile × DownloadStats) :=
  let df1 := updateFileStatus env.nowStart dataFile file.id .inProgress none none
  match env.save1 with
  | .error e =>
    .ok (updateFileStatus env.nowCatch df1 file.id .failed none (some e),
      { stats with failed := stats.failed + 1 })
  | .ok _ =>
    match env.result with
    | .error e =>
      .ok (updateFileStatus env.nowCatch df1 file.id .failed none (some e),
        { stats with failed := stats.failed + 1 })
    | .ok result =>
      let df2 :=
        if result.success then
          updateFileStatus env.nowOutcome df1 file.id .completed result.downloadPath none
        else
          updateFileStatus env.nowOutcome df1 file.id .failed none result.error
      let stats2 :=
        if result.success then
          { stats with completed := stats.completed + 1
                       downloadedSize := stats.downloadedSize + file.size }
        else
          { stats with failed := stats.failed + 1 }
      match env.save2 with
      | .error e =>
        .ok (updateFileStatus env.nowCatch df2 file.id .failed none (some e),
          { stats2 with failed := stats2.failed + 1 })
      | .ok _ => .ok (df2, stats2)

/-- The tail of `DownloadManager.start()`: the final `saveDataFile` after the
queue drains, then the stats are returned. `start`'s own catch logs and
re-throws, so a failure of this save propagates to the invoking workflow. -/
def startFinalSave (finalSave : Except String Unit) (stats : DownloadStats) :
    Except String DownloadStats :=
  match finalSave with
  | .error e => .error e
  | .ok _ => .ok stats

/-! ### The concurrency-bounded run (DownloadManager.downloadWithConcurrency)

The run is embedded as a small-step transition system over the scheduler
state. A `start` step models the inner fill loop creating one
`downloadSingleFile` promise (which synchronously marks the job
`in-progress`); a `finish` step models one in-flight execution settling and
being spliced out of `active`, applying the status and stats updates its
`downloadSingleFile` body performs (see `JobOutcome` for the possible
endings). Interleavings of the model are a superset of the event orderings of
the cooperative scheduler, so invariants proved over all reachable states
cover every actual execution. -/

/-- The ways a `downloadSingleFile` execution can end, with the data its
updates need. `success`: transfer succeeded and both saves succeeded.
`failure`: the transfer failed, the retry wrapper's promise rejected, or the
first save failed (handled by the catch). `successThenSaveFail`: the transfer
succeeded but the second save failed, so the catch re-marks the job failed
after the completed transition. `failureThenSaveFail`: the transfer failed and
the second save also failed, so the job is marked failed twice and
`stats.failed` is incremented twice. -/
inductive JobOutcome where
  | success (now : String) (p : String)
  | failure (now : String) (msg : String)
  | successThenSaveFail (now1 : String) (p : String) (now2 : String) (msg : String)
  | failureThenSaveFail (now1 : String) (msg1 : String) (now2 : String) (msg2 : String)

/-- Status updates a finishing execution applies to the snapshot. -/
def applyOutcome (id : String) (o : JobOutcome) (df : DataFile) : DataFile :=
  match o with
  | .success now p => updateFileStatus now df id .completed (some p) none
  | .failure now msg => updateFileStatus now df id .failed none (some msg)
  | .successThenSaveFail now1 p now2 msg =>
    updateFileStatus now2 (updateFileStatus now1 df id .completed (some p) none)
      id .failed none (some msg)
  | .failureThenSaveFail now1 msg1 now2 msg2 =>
    updateFileStatus now2 (updateFileStatus now1 df id .failed none (some msg1))
      id .failed none (some msg2)

/-- Stats updates a finishing execution applies; `sz` is the captured
`file.size` of the finishing job, credited on the completed transition. -/
def bumpStats (sz : Nat) (o : JobOutcome) (stats : DownloadStats) : DownloadStats :=
  match o with
  | .success _ _ =>
    { stats with completed := stats.completed + 1
                 downloadedSize := stats.downloadedSize + sz }
  | .failure _ _ => { stats with failed := stats.failed + 1 }
  | .successThenSaveFail _ _ _ _ =>
    { stats with completed := stats.completed + 1
                 downloadedSize := stats.downloadedSize + sz
                 failed := stats.failed + 1 }
  | .failureThenSaveFail _ _ _ _ => { stats with failed := stats.failed + 2 }

/-- A successful `downloadFileWithRetry` result always carries the non-empty
`outputPath` as `downloadPath` (see `downloadFile_success_path`), so the
completed transitions of a finishing execution always supply a truthy path. -/
def outcomePathOk : JobOutcome → Bool
  | .success _ p => decide (p ≠ "")
  | .successThenSaveFail _ p _ _ => decide (p ≠ "")
  | _ => true

/-- Scheduler state: the FIFO `queue` of candidate job ids, the ids of the
in-flight `active` executions, the in-memory snapshot and the run stats. -/
structure RunState where
  queue : List String
  act : List String
  dataFile : DataFile
  stats : DownloadStats

/-- `config.download?.concurrency || 3` from `downloadWithConcurrency`. -/
def runConcurrency (config : Configuration) : Nat :=
  jsOrNat (config.download.bind (fun d => d.concurrency)) 3

/-- Initial scheduler state of `start()`: candidates queued in file order,
nothing in flight, `stats.total`/`stats.totalSize` filled from the candidate
set. -/
def initRun (resumeExisting : Bool) (df : DataFile) : RunState :=
  let candidates := getFilesToDownload resumeExisting df
  { queue := candidates.map (fun f => f.id)
    act := []
    dataFile := df
    stats := { initialStats with
                 total := candidates.length
                 totalSize := candidates.foldl (fun sum f => sum + f.size) 0 } }

/-- One scheduler event. `start`: the fill loop pops the queue head while
`active.length < concurrency` and the new execution synchronously marks its
job `in-progress`. `finish`: one in-flight execution settles, is spliced out
of `active`, and its `downloadSingleFile` updates are applied. -/
inductive RunStep (C : Nat) (sizeOf : String → Nat) : RunState → RunState → Prop where
  | start (s : RunState) (id : String) (rest : List String) (now : String) :
      s.queue = id :: rest →
      s.act.length < C →
      RunStep C sizeOf s
        { queue := rest
          act := s.act ++ [id]
          dataFile := updateFileStatus now s.dataFile id .inProgress none none
          stats := s.stats }
  | finish (s : RunState) (id : String) (o : JobOutcome) :
      id ∈ s.act →
      outcomePathOk o = true →
      RunStep C sizeOf s
        { queue := s.queue
          act := s.act.erase id
          dataFile := applyOutcome id o s.dataFile
          stats := bumpStats (sizeOf id) o s.stats }

/-- States reachable during the run from the initial state. -/
def RunReachable (C : Nat) (sizeOf : String → Nat) (resumeExisting : Bool)
    (df : DataFile) (s : RunState) : Prop :=
  Relation.ReflTransGen (RunStep C sizeOf) (initRun resumeExisting df) s

/-- The download status recorded for `id` in the snapshot: status of the
first entry with that id (both `findIndex`-based updates and searches use the
first match). -/
def statusOf (df : DataFile) (id : String) : Option DownloadStatus :=
  (df.files.find? (fun f => f.id == id)).map (fun f => f.downloadStatus)

/-- Number of the given jobs currently recorded as `in-progress`. -/
def countInProgress (df : DataFile) (ids : List String) : Nat :=
  (ids.filter (fun id => statusOf df id == some .inProgress)).length

/-! ### Proof-side characterizations of the run -/

/-- Structural-recursion form of `setFirst` (provably equal to it), used for
induction. -/
def setFirstRec (q : FileEntry → Bool) (g : FileEntry → FileEntry) :
    List FileEntry → List FileEntry
  | [] => []
  | f :: rest => if q f then g f :: rest else f :: setFirstRec q g rest

/-- Every completed entry of the snapshot carries a truthy `downloadPath`. -/
def CompletedPathInv (df : DataFile) : Prop :=
  ∀ f ∈ df.files, f.downloadStatus = .completed → truthyStr f.downloadPath = true

/-- The scheduler-loop invariant: the in-flight set is within the bound, the
queue and in-flight ids are pairwise distinct candidate ids, the snapshot
keeps the same job ids, and every candidate is either still queued (status
pending or failed), in flight (status in-progress), or finished (status
completed or failed). -/
def RunInv (C : Nat) (cands : List String) (df0 : DataFile) (s : RunState) : Prop :=
  s.act.length ≤ C ∧
  (s.queue ++ s.act).Nodup ∧
  (∀ id ∈ s.queue ++ s.act, id ∈ cands) ∧
  s.dataFile.files.map (fun f => f.id) = df0.files.map (fun f => f.id) ∧
  ∀ id ∈ cands,
    (id ∈ s.queue ∧ (statusOf s.dataFile id = some .pending ∨ statusOf s.dataFile id = some .failed)) ∨
    (id ∈ s.act ∧ statusOf s.dataFile id = some .inProgress) ∨
    (id ∉ s.queue ∧ id ∉ s.act ∧
      (statusOf s.dataFile id = some .completed ∨ statusOf s.dataFile id = some .failed))

/-! ### Concrete fixtures used by witnesses and counterexamples -/

/-- A concrete `FileEntry` with the given id, status and size. -/
def exFile (id : String) (st : DownloadStatus) (sz : Nat) : FileEntry :=
  { id := id
    groupId := "g1"
    name := "file.bin"
    size := sz
    mimeType := some "application/octet-stream"
    extension := some ".bin"
    telegramFileId := "tf1"
    messageId := 10
    uploadedAt := none
    discoveredAt := "2024-01-01T00:00:00.000Z"
    downloadStatus := st
    downloadedAt := none
    downloadPath := none
    errorMessage := none }

/-- A concrete snapshot holding the given files. -/
def exDataFile (files : List FileEntry) : DataFile :=
  { createDataFile "2024-01-01T00:00:00.000Z" with files := files }

/-- Stored record for the upsert scenario: completed, size 100, path set. -/
def c3stored : FileEntry :=
  { exFile "g1:10" .completed 100 with
      downloadPath := some "/downloads/file.bin"
      downloadedAt := some "2024-01-02T00:00:00.000Z" }

/-- Incoming discovery record for the upsert scenario: pending, size 120. -/
def c3incoming : FileEntry := exFile "g1:10" .pending 120

/-- Snapshot holding the stored record of the upsert scenario. -/
def c3df : DataFile := exDataFile [c3stored]

/-- A transfer attempt in which everything works and the buffer has the
declared 100 bytes. -/
def okTransferEnv : TransferEnv :=
  { finalExists := false, entityFound := true, messageFound := true
    isDocument := true, buffer := some 100 }

/-- A transfer attempt in which the entity lookup fails. -/
def badTransferEnv : TransferEnv :=
  { finalExists := false, entityFound := false, messageFound := true
    isDocument := true, buffer := none }

/-- Attempt behaviours for the retry scenario: failure on attempt 1, success
on attempt 2. -/
def c6envs (attempt : Nat) : TransferEnv :=
  if attempt = 2 then okTransferEnv else badTransferEnv

/-- A transfer attempt writing 50 bytes for a job declaring 100. -/
def c7env : TransferEnv :=
  { finalExists := false, entityFound := true, messageFound := true
    isDocument := true, buffer := some 50 }

/-- A successful retry-wrapper result for the job of the C4 scenario. -/
def c4result : DownloadResult :=
  { success := true, file := exFile "g1:10" .pending 100
    downloadPath := some "/downloads/file.bin", error := none }

/-- A `downloadSingleFile` environment whose first `saveDataFile` call
fails. -/
def c4env : JobEnv :=
  { nowStart := "t1"
    save1 := .error "ENOSPC: no space left on device"
    result := .ok c4result
    nowOutcome := "t2"
    save2 := .ok ()
    nowCatch := "t3" }

/-- Snapshot with the single pending job of the C4 scenario. -/
def c4df : DataFile := exDataFile [exFile "g1:10" .pending 100]

/-- Snapshot with one pending job, for the concurrency-run witnesses. -/
def c1df : DataFile := exDataFile [exFile "g1:10" .pending 100]

/-- Snapshot with one pending job, for the C5 fail-then-resume scenario. -/
def c5df0 : DataFile := exDataFile [exFile "g1:10" .pending 100]

/-- Scheduler state at the end of run 1 of the C5 scenario: the job was
started (marked `in-progress`) and finished with a failure recording
`"network error"`. -/
def c5s1 : RunState :=
  { queue := []
    act := (([] : List String) ++ ["g1:10"]).erase "g1:10"
    dataFile := applyOutcome "g1:10" (.failure "t2" "network error")
      (updateFileStatus "t1" c5df0 "g1:10" .inProgress none none)
    stats := bumpStats 100 (.failure "t2" "network error") (initRun false c5df0).stats }

/-- Scheduler state at the end of run 2 (resume mode) of the C5 scenario:
the same job was re-run and finished successfully. -/
def c5s2 : RunState :=
  { queue := []
    act := (([] : List String) ++ ["g1:10"]).erase "g1:10"
    dataFile := applyOutcome "g1:10" (.success "t4" "/downloads/file.bin")
      (updateFileStatus "t3" c5s1.dataFile "g1:10" .inProgress none none)
    stats := bumpStats 100 (.success "t4" "/downloads/file.bin")
      (initRun true c5s1.dataFile).stats }

/-- A completed entry with a recorded download path. -/
def c5completed : FileEntry :=
  { exFile "g1:5" .completed 70 with downloadPath := some "/downloads/old.bin" }

/-- Snapshot holding `c5completed`. -/
def c5dfC : DataFile := exDataFile [c5completed]

/-- The newer backup filename of the recovery scenario. -/
def c9good : List Char := ("data.json.backup.2024-01-01T00-00-00-000Z").data

/-- The older backup filename of the recovery scenario. -/
def c9old : List Char := ("data.json.backup.2023-12-31T23-59-59-000Z").data

/-- Load environment of the recovery scenario: unparsable primary file, two
backups and one unrelated entry in the directory, and only the newest backup
parses. -/
def c9env : LoadEnv :=
  { fileContent := some .invalidJson
    dirListing := some [c9old, c9good, ("notes.txt").data]
    backupContent := fun b => if b = c9good then some (createDataFile "tb") else none }

end TgFileDownloader

namespace TgFileDownloader

/-! ## Theorems -/

/-! ### First-match update lemmas -/

theorem setFirst_eq_rec (q : FileEntry → Bool) (g : FileEntry → FileEntry) :
    ∀ l, setFirst q g l = setFirstRec q g l := by
  intro l
  induction l with
  | nil => rfl
  | cons f rest ih =>
    by_cases h : q f
    · simp [setFirst, setFirstRec, List.findIdx?_cons, h]
    · simp only [setFirstRec, if_neg h]
      rw [← ih]
      simp only [setFirst, List.findIdx?_cons, if_neg h]
      rw [show (0 + 1) = 1 from rfl, List.findIdx?_succ]
      cases hr : rest.findIdx? q with
      | none => simp [hr]
      | some i =>
        simp only [Option.map_some]
        cases hx : rest[i]? with
        | none => simp [hx]
        | some x => simp [hx]

theorem setFirstRec_map_id (q : FileEntry → Bool) (g : FileEntry → FileEntry)
    (hg : ∀ f, (g f).id = f.id) :
    ∀ l, (setFirstRec q g l).map (fun f => f.id) = l.map (fun f => f.id) := by
  intro l
  induction l with
  | nil => rfl
  | cons f rest ih =>
    simp only [setFirstRec]
    by_cases h : q f
    · simp [h, hg]
    · simp [h, ih]

theorem setFirstRec_find?_self (q : FileEntry → Bool) (g : FileEntry → FileEntry)
    (hq : ∀ f, q (g f) = q f) :
    ∀ l, (setFirstRec q g l).find? q = (l.find? q).map g := by
  intro l
  induction l with
  | nil => rfl
  | cons f rest ih =>
    simp only [setFirstRec]
    by_cases h : q f
    · rw [if_pos h, List.find?_cons_of_pos _ (by rw [hq]; exact h),
        List.find?_cons_of_pos _ h]
      rfl
    · rw [if_neg h, List.find?_cons_of_neg _ h,
        List.find?_cons_of_neg _ (by simpa using h), ih]

theorem setFirstRec_find?_other (q q2 : FileEntry → Bool) (g : FileEntry → FileEntry)
    (hq2 : ∀ f, q2 (g f) = q2 f) (hdisj : ∀ f, q f = true → q2 f = false) :
    ∀ l, (setFirstRec q g l).find? q2 = l.find? q2 := by
  intro l
  induction l with
  | nil => rfl
  | cons f rest ih =>
    simp only [setFirstRec]
    by_cases h : q f
    · rw [if_pos h, List.find?_cons_of_neg _ (by rw [hq2]; simp [hdisj f h]),
        List.find?_cons_of_neg _ (by simp [hdisj f h])]
    · rw [if_neg h]
      by_cases h2 : q2 f
      · rw [List.find?_cons_of_pos _ h2, List.find?_cons_of_pos _ h2]
      · rw [List.find?_cons_of_neg _ h2, List.find?_cons_of_neg _ h2, ih]

theorem setFirstRec_mem (q : FileEntry → Bool) (g : FileEntry → FileEntry) :
    ∀ l x, x ∈ setFirstRec q g l → x ∈ l ∨ ∃ f, f ∈ l ∧ q f = true ∧ x = g f := by
  intro l
  induction l with
  | nil => intro x hx; simp [setFirstRec] at hx
  | cons f rest ih =>
    intro x hx
    simp only [setFirstRec] at hx
    by_cases h : q f
    · rw [if_pos h] at hx
      rcases List.mem_cons.mp hx with hx | hx
      · exact Or.inr ⟨f, List.mem_cons_self .., h, hx⟩
      · exact Or.inl (List.mem_cons_of_mem _ hx)
    · rw [if_neg h] at hx
      rcases List.mem_cons.mp hx with hx | hx
      · exact Or.inl (hx ▸ List.mem_cons_self ..)
      · rcases ih x hx with hx | ⟨f0, hf0, hq0, hx⟩
        · exact Or.inl (List.mem_cons_of_mem _ hx)
        · exact Or.inr ⟨f0, List.mem_cons_of_mem _ hf0, hq0, hx⟩

theorem patchEntry_id (now : String) (st : DownloadStatus) (p e : Option String)
    (f : FileEntry) : (patchEntry now st p e f).id = f.id := by
  simp only [patchEntry]
  split <;> split <;> rfl

theorem patchEntry_status (now : String) (st : DownloadStatus) (p e : Option String)
    (f : FileEntry) : (patchEntry now st p e f).downloadStatus = st := by
  simp only [patchEntry]
  split <;> split <;> rfl

theorem patchEntry_path_of_truthy (now : String) (st : DownloadStatus)
    (p e : Option String) (f : FileEntry) (hp : truthyStr p = true) :
    (patchEntry now st p e f).downloadPath = p := by
  simp only [patchEntry, hp, if_true]
  split <;> rfl

/-! ### `statusOf` under `updateFileStatus` -/

theorem find?_isSome_of_mem_ids (l : List FileEntry) (id : String)
    (h : id ∈ l.map (fun f => f.id)) :
    (l.find? (fun f => f.id == id)).isSome := by
  rcases List.mem_map.mp h with ⟨f, hf, hid⟩
  rw [List.find?_isSome]
  exact ⟨f, hf, by simp [hid]⟩

theorem statusOf_updateFileStatus_self (now : String) (df : DataFile) (id : String)
    (st : DownloadStatus) (p e : Option String)
    (h : id ∈ df.files.map (fun f => f.id)) :
    statusOf (updateFileStatus now df id st p e) id = some st := by
  have hq : ∀ f, ((patchEntry now st p e f).id == id) = (f.id == id) := by
    intro f
    rw [patchEntry_id]
  have := setFirstRec_find?_self (fun f => f.id == id) (patchEntry now st p e) hq df.files
  simp only [statusOf, updateFileStatus, setFirst_eq_rec, this]
  rcases Option.isSome_iff_exists.mp (find?_isSome_of_mem_ids df.files id h) with ⟨f, hf⟩
  rw [hf]
  simp [patchEntry_status]

theorem statusOf_updateFileStatus_other (now : String) (df : DataFile) (id : String)
    (st : DownloadStatus) (p e : Option String) (id2 : String) (hne : id2 ≠ id) :
    statusOf (updateFileStatus now df id st p e) id2 = statusOf df id2 := by
  have hq2 : ∀ f, ((patchEntry now st p e f).id == id2) = (f.id == id2) := by
    intro f
    rw [patchEntry_id]
  have hdisj : ∀ f : FileEntry, (f.id == id) = true → (f.id == id2) = false := by
    intro f hf
    have hid : f.id = id := by simpa using hf
    rw [hid]
    simp only [beq_eq_false_iff_ne]
    exact fun h => hne h.symm
  have := setFirstRec_find?_other (fun f => f.id == id) (fun f => f.id == id2)
    (patchEntry now st p e) hq2 hdisj df.files
  simp only [statusOf, updateFileStatus, setFirst_eq_rec, this]

theorem updateFileStatus_map_id (now : String) (df : DataFile) (id : String)
    (st : DownloadStatus) (p e : Option String) :
    (updateFileStatus now df id st p e).files.map (fun f => f.id) =
      df.files.map (fun f => f.id) := by
  simp only [updateFileStatus, setFirst_eq_rec]
  exact setFirstRec_map_id _ _ (patchEntry_id now st p e) df.files

theorem updateFileStatus_completedPathInv (now : String) (df : DataFile) (id : String)
    (st : DownloadStatus) (p e : Option String) (hdf : CompletedPathInv df)
    (hst : st = .completed → truthyStr p = true) :
    CompletedPathInv (updateFileStatus now df id st p e) := by
  intro f hf hcomp
  simp only [updateFileStatus, setFirst_eq_rec] at hf
  rcases setFirstRec_mem _ _ df.files f hf with hold | ⟨f0, hf0, _, rfl⟩
  · exact hdf f hold hcomp
  · rw [patchEntry_status] at hcomp
    have hp := hst hcomp
    rw [patchEntry_path_of_truthy _ _ _ _ _ hp]
    exact hp

/-! ### Candidate-set and snapshot lemmas for the run -/

theorem getFilesToDownload_sublist (resume : Bool) (df : DataFile) :
    List.Sublist (getFilesToDownload resume df) df.files := by
  unfold getFilesToDownload
  split <;> exact List.filter_sublist _

theorem getFilesToDownload_status (resume : Bool) (df : DataFile) (f : FileEntry)
    (hf : f ∈ getFilesToDownload resume df) :
    f.downloadStatus = .pending ∨ f.downloadStatus = .failed := by
  unfold getFilesToDownload at hf
  split at hf
  · have := (List.mem_filter.mp hf).2
    revert this
    cases f.downloadStatus <;> simp
  · have := (List.mem_filter.mp hf).2
    revert this
    cases f.downloadStatus <;> simp

theorem find?_eq_of_mem_nodup (l : List FileEntry)
    (hn : (l.map (fun f => f.id)).Nodup) (f : FileEntry) (hf : f ∈ l) :
    l.find? (fun g => g.id == f.id) = some f := by
  induction l with
  | nil => cases hf
  | cons a rest ih =>
    simp only [List.map_cons, List.nodup_cons] at hn
    rcases List.mem_cons.mp hf with rfl | hf2
    · exact List.find?_cons_of_pos _ (by simp)
    · have hne : (a.id == f.id) = false := by
        simp only [beq_eq_false_iff_ne]
        intro heq
        exact hn.1 (heq ▸ List.mem_map.mpr ⟨f, hf2, rfl⟩)
      rw [show (a :: rest).find? (fun g => g.id == f.id) =
            rest.find? (fun g => g.id == f.id) from
          List.find?_cons_of_neg _ (by simp [hne])]
      exact ih hn.2 hf2

theorem statusOf_applyOutcome_self (id : String) (o : JobOutcome) (df : DataFile)
    (hmem : id ∈ df.files.map (fun f => f.id)) :
    statusOf (applyOutcome id o df) id = some .completed ∨
      statusOf (applyOutcome id o df) id = some .failed := by
  cases o with
  | success now p =>
    exact Or.inl (statusOf_updateFileStatus_self now df id .completed (some p) none hmem)
  | failure now msg =>
    exact Or.inr (statusOf_updateFileStatus_self now df id .failed none (some msg) hmem)
  | successThenSaveFail now1 p now2 msg =>
    refine Or.inr (statusOf_updateFileStatus_self now2 _ id .failed none (some msg) ?_)
    rw [updateFileStatus_map_id]
    exact hmem
  | failureThenSaveFail now1 msg1 now2 msg2 =>
    refine Or.inr (statusOf_updateFileStatus_self now2 _ id .failed none (some msg2) ?_)
    rw [updateFileStatus_map_id]
    exact hmem

theorem statusOf_applyOutcome_other (id : String) (o : JobOutcome) (df : DataFile)
    (id2 : String) (hne : id2 ≠ id) :
    statusOf (applyOutcome id o df) id2 = statusOf df id2 := by
  cases o with
  | success now p => exact statusOf_updateFileStatus_other now df id _ _ _ id2 hne
  | failure now msg => exact statusOf_updateFileStatus_other now df id _ _ _ id2 hne
  | successThenSaveFail now1 p now2 msg =>
    simp only [applyOutcome]
    rw [statusOf_updateFileStatus_other _ _ id _ _ _ id2 hne,
      statusOf_updateFileStatus_other _ _ id _ _ _ id2 hne]
  | failureThenSaveFail now1 msg1 now2 msg2 =>
    simp only [applyOutcome]
    rw [statusOf_updateFileStatus_other _ _ id _ _ _ id2 hne,
      statusOf_updateFileStatus_other _ _ id _ _ _ id2 hne]

theorem applyOutcome_map_id (id : String) (o : JobOutcome) (df : DataFile) :
    (applyOutcome id o df).files.map (fun f => f.id) = df.files.map (fun f => f.id) := by
  cases o <;> simp only [applyOutcome, updateFileStatus_map_id]

/-! ### Run invariant: initialization and preservation -/

theorem runInv_init (C : Nat) (resume : Bool) (df0 : DataFile)
    (hn : (df0.files.map (fun f => f.id)).Nodup) :
    RunInv C ((getFilesToDownload resume df0).map (fun f => f.id)) df0
      (initRun resume df0) := by
  have hsubl := getFilesToDownload_sublist resume df0
  have hcnodup : ((getFilesToDownload resume df0).map (fun f => f.id)).Nodup :=
    hn.sublist (hsubl.map (fun f => f.id))
  refine ⟨Nat.zero_le C, ?_, ?_, rfl, ?_⟩
  · show (((getFilesToDownload resume df0).map (fun f : FileEntry => f.id)) ++ ([] : List String)).Nodup
    simpa using hcnodup
  · intro id hid
    have hid2 : id ∈ ((getFilesToDownload resume df0).map (fun f : FileEntry => f.id)) ++ ([] : List String) := hid
    simpa using hid2
  · intro id hid
    rcases List.mem_map.mp hid with ⟨f, hf, rfl⟩
    refine Or.inl ⟨hid, ?_⟩
    show statusOf df0 f.id = some .pending ∨ statusOf df0 f.id = some .failed
    have hstat : statusOf df0 f.id = some f.downloadStatus := by
      have hmem : f ∈ df0.files := hsubl.subset hf
      simp [statusOf, find?_eq_of_mem_nodup df0.files hn f hmem]
    rcases getFilesToDownload_status resume df0 f hf with h | h
    · exact Or.inl (by rw [hstat, h])
    · exact Or.inr (by rw [hstat, h])

theorem runInv_preserved (C : Nat) (szf : String → Nat) (cands : List String)
    (df0 : DataFile)
    (hsub : ∀ id ∈ cands, id ∈ df0.files.map (fun f => f.id))
    (s s2 : RunState) (hinv : RunInv C cands df0 s) (hstep : RunStep C szf s s2) :
    RunInv C cands df0 s2 := by
  obtain ⟨hlen, hnd, hmem, hids, hstat⟩ := hinv
  cases hstep with
  | start id rest now hq hlenC =>
    have hnd0 : (id :: (rest ++ s.act)).Nodup := by
      have := hq ▸ hnd
      simpa using this
    refine ⟨?_, ?_, ?_, ?_, ?_⟩
    · simp only [List.length_append, List.length_cons, List.length_nil]
      omega
    · have hperm : (rest ++ (s.act ++ [id])).Perm (id :: (rest ++ s.act)) := by
        have h1 : rest ++ (s.act ++ [id]) = (rest ++ s.act) ++ [id] :=
          (List.append_assoc rest s.act [id]).symm
        rw [h1]
        exact List.perm_append_singleton id (rest ++ s.act)
      exact hperm.nodup_iff.mpr hnd0
    · intro x hx
      rcases List.mem_append.mp hx with hx | hx
      · exact hmem x (List.mem_append.mpr (Or.inl (hq ▸ List.mem_cons_of_mem id hx)))
      · rcases List.mem_append.mp hx with hx | hx
        · exact hmem x (List.mem_append.mpr (Or.inr hx))
        · have hxi : x = id := by simpa using hx
          exact hmem x (List.mem_append.mpr (Or.inl (hq ▸ (hxi ▸ List.mem_cons_self ..))))
    · simp only [updateFileStatus_map_id]
      exact hids
    · intro x hxc
      by_cases hxid : x = id
      · subst hxid
        refine Or.inr (Or.inl ⟨List.mem_append.mpr (Or.inr (List.mem_cons_self ..)), ?_⟩)
        apply statusOf_updateFileStatus_self
        rw [hids]
        exact hsub x hxc
      · have hst := statusOf_updateFileStatus_other now s.dataFile id .inProgress none none x hxid
        rcases hstat x hxc with ⟨hq1, hs1⟩ | ⟨ha1, hs1⟩ | ⟨hq1, ha1, hs1⟩
        · have hx : x ∈ id :: rest := hq ▸ hq1
          have hxr : x ∈ rest := by
            rcases List.mem_cons.mp hx with h | h
            · exact absurd h hxid
            · exact h
          exact Or.inl ⟨hxr, by rw [hst]; exact hs1⟩
        · exact Or.inr (Or.inl ⟨List.mem_append.mpr (Or.inl ha1), by rw [hst]; exact hs1⟩)
        · refine Or.inr (Or.inr ⟨?_, ?_, ?_⟩)
          · intro hx
            exact hq1 (hq ▸ List.mem_cons_of_mem id hx)
          · intro hx
            rcases List.mem_append.mp hx with hx | hx
            · exact ha1 hx
            · exact hxid (by simpa using hx)
          · rw [hst]
            exact hs1
  | finish id o hmemId hpath =>
    have hqnodup : s.queue.Nodup := (List.nodup_append.mp hnd).1
    have hanodup : s.act.Nodup := (List.nodup_append.mp hnd).2.1
    have hdisj : s.queue.Disjoint s.act := (List.nodup_append.mp hnd).2.2
    refine ⟨?_, ?_, ?_, ?_, ?_⟩
    · exact le_trans ((List.erase_sublist id s.act).length_le) hlen
    · exact hnd.sublist ((List.erase_sublist id s.act).append_left s.queue)
    · intro x hx
      rcases List.mem_append.mp hx with hx | hx
      · exact hmem x (List.mem_append.mpr (Or.inl hx))
      · exact hmem x (List.mem_append.mpr (Or.inr (List.mem_of_mem_erase hx)))
    · rw [applyOutcome_map_id]
      exact hids
    · intro x hxc
      by_cases hxid : x = id
      · subst hxid
        refine Or.inr (Or.inr ⟨?_, ?_, ?_⟩)
        · intro hx
          exact hdisj hx hmemId
        · intro hx
          exact ((hanodup.mem_erase_iff).mp hx).1 rfl
        · apply statusOf_applyOutcome_self
          rw [hids]
          exact hsub x hxc
      · have hst := statusOf_applyOutcome_other id o s.dataFile x hxid
        rcases hstat x hxc with ⟨hq1, hs1⟩ | ⟨ha1, hs1⟩ | ⟨hq1, ha1, hs1⟩
        · exact Or.inl ⟨hq1, by rw [hst]; exact hs1⟩
        · refine Or.inr (Or.inl ⟨?_, by rw [hst]; exact hs1⟩)
          exact (hanodup.mem_erase_iff).mpr ⟨hxid, ha1⟩
        · refine Or.inr (Or.inr ⟨hq1, ?_, by rw [hst]; exact hs1⟩)
          intro hx
          exact ha1 (List.mem_of_mem_erase hx)

theorem runInv_reachable (C : Nat) (szf : String → Nat) (resume : Bool)
    (df0 : DataFile) (hn : (df0.files.map (fun f => f.id)).Nodup) (s : RunState)
    (hs : RunReachable C szf resume df0 s) :
    RunInv C ((getFilesToDownload resume df0).map (fun f => f.id)) df0 s := by
  induction hs with
  | refl => exact runInv_init C resume df0 hn
  | tail hsteps step ih =>
    refine runInv_preserved C szf _ df0 ?_ _ _ ih step
    intro id hid
    rcases List.mem_map.mp hid with ⟨f, hf, rfl⟩
    exact List.mem_map.mpr ⟨f, (getFilesToDownload_sublist resume df0).subset hf, rfl⟩

/-! ### Concurrency bound, race-based refill, termination (claim C1) -/

/-- Claim C1: during a run with concurrency bound `concurrency || 3`, every
reachable scheduler state has at most that many candidate jobs in status
`in-progress`; whenever an in-flight slot is free and the queue is non-empty
a start step is enabled that immediately fills the slot (race-based refill,
not batch-based); and in any terminal state (queue and in-flight set empty)
every candidate job's status is `completed` or `failed`. -/
theorem run_concurrency_bound (config : Configuration) (szf : String → Nat)
    (resume : Bool) (df0 : DataFile)
    (hids : (df0.files.map (fun f => f.id)).Nodup) :
    (∀ s, RunReachable (runConcurrency config) szf resume df0 s →
      countInProgress s.dataFile ((getFilesToDownload resume df0).map (fun f => f.id)) ≤
        runConcurrency config) ∧
    (∀ s, RunReachable (runConcurrency config) szf resume df0 s →
      s.act.length < runConcurrency config → s.queue ≠ [] →
      ∃ s2, RunStep (runConcurrency config) szf s s2 ∧
        s2.act.length = s.act.length + 1 ∧ s2.queue.length + 1 = s.queue.length) ∧
    (∀ s, RunReachable (runConcurrency config) szf resume df0 s →
      s.queue = [] → s.act = [] →
      ∀ id ∈ (getFilesToDownload resume df0).map (fun f : FileEntry => f.id),
        statusOf s.dataFile id = some .completed ∨
          statusOf s.dataFile id = some .failed) := by
  have hcnodup : ((getFilesToDownload resume df0).map (fun f : FileEntry => f.id)).Nodup :=
    hids.sublist ((getFilesToDownload_sublist resume df0).map (fun f => f.id))
  refine ⟨?_, ?_, ?_⟩
  · intro s hs
    obtain ⟨hlen, hnd, hmem, hids2, hstat⟩ :=
      runInv_reachable (runConcurrency config) szf resume df0 hids s hs
    have hsubact : ∀ x ∈ ((getFilesToDownload resume df0).map (fun f : FileEntry => f.id)).filter
        (fun id => statusOf s.dataFile id == some .inProgress), x ∈ s.act := by
      intro x hx
      have hxc := (List.mem_filter.mp hx).1
      have hxip : statusOf s.dataFile x = some .inProgress := by
        have := (List.mem_filter.mp hx).2
        simpa using this
      rcases hstat x hxc with ⟨_, hs1⟩ | ⟨ha1, _⟩ | ⟨_, _, hs1⟩
      · rcases hs1 with hs1 | hs1 <;> simp [hs1] at hxip
      · exact ha1
      · rcases hs1 with hs1 | hs1 <;> simp [hs1] at hxip
    have hfnodup := hcnodup.filter
      (fun id => statusOf s.dataFile id == some .inProgress)
    calc countInProgress s.dataFile ((getFilesToDownload resume df0).map (fun f => f.id)) ≤
        s.act.length := (hfnodup.subperm hsubact).length_le
    _ ≤ runConcurrency config := hlen
  · intro s hs hlt hne
    cases hq : s.queue with
    | nil => exact absurd hq hne
    | cons id rest =>
      refine ⟨_, RunStep.start s id rest "" hq hlt, ?_, ?_⟩
      · simp
      · simp [hq]
  · intro s hs hqe hae id hid
    obtain ⟨_, _, _, _, hstat⟩ :=
      runInv_reachable (runConcurrency config) szf resume df0 hids s hs
    rcases hstat id hid with ⟨hq1, _⟩ | ⟨ha1, _⟩ | ⟨_, _, hs1⟩
    · rw [hqe] at hq1
      cases hq1
    · rw [hae] at ha1
      cases ha1
    · exact hs1

/-- Witness for C1: with one pending candidate and the default bound 3, the
count of in-progress jobs at the initial state is within the bound, and a
start step is enabled that fills a slot. -/
theorem run_concurrency_bound_witness :
    countInProgress (initRun false c1df).dataFile
      ((getFilesToDownload false c1df).map (fun f => f.id)) ≤ runConcurrency ⟨none⟩ ∧
    (∃ s2, RunStep (runConcurrency ⟨none⟩) (fun _ => 100) (initRun false c1df) s2 ∧
      s2.act.length = (initRun false c1df).act.length + 1 ∧
      s2.queue.length + 1 = (initRun false c1df).queue.length) :=
  ⟨(run_concurrency_bound ⟨none⟩ (fun _ => 100) false c1df (by decide)).1
      (initRun false c1df) Relation.ReflTransGen.refl,
    (run_concurrency_bound ⟨none⟩ (fun _ => 100) false c1df (by decide)).2.1
      (initRun false c1df) Relation.ReflTransGen.refl (by decide) (by decide)⟩

/-! ### Completed entries and stale error messages (claim C5) -/

/-- Counterexample to C5: a job that fails in one run (recording an
`errorMessage`) and succeeds after being re-run in resume mode ends
`completed` with `downloadPath` set but with the stale `errorMessage` still
present — `updateFileStatus` never clears `errorMessage` on success. Both
runs are exhibited as scheduler transition chains. -/
theorem completed_with_stale_errorMessage_counterexample :
    RunReachable 3 (fun _ => 100) false c5df0 c5s1 ∧ c5s1.queue = [] ∧ c5s1.act = [] ∧
    RunReachable 3 (fun _ => 100) true c5s1.dataFile c5s2 ∧ c5s2.queue = [] ∧ c5s2.act = [] ∧
    ¬ (∀ f ∈ c5s2.dataFile.files, f.downloadStatus = .completed →
        f.downloadPath.isSome = true ∧ f.errorMessage = none) := by
  refine ⟨?_, rfl, by decide, ?_, rfl, by decide, by decide⟩
  · exact Relation.ReflTransGen.tail
      (Relation.ReflTransGen.tail Relation.ReflTransGen.refl
        (RunStep.start (initRun false c5df0) "g1:10" [] "t1" (by decide) (by decide)))
      (RunStep.finish _ "g1:10" (.failure "t2" "network error") (by decide) (by decide))
  · exact Relation.ReflTransGen.tail
      (Relation.ReflTransGen.tail Relation.ReflTransGen.refl
        (RunStep.start (initRun true c5s1.dataFile) "g1:10" [] "t3" (by decide) (by decide)))
      (RunStep.finish _ "g1:10" (.success "t4" "/downloads/file.bin") (by decide) (by decide))

/-- Amended C5: in every reachable snapshot of a run started from a snapshot
whose completed entries all carry a (truthy) `downloadPath`, completed still
implies `downloadPath` set; but `errorMessage` is not cleared on success, so
a completed entry may keep the message of an earlier failure (see the
counterexample). -/
theorem run_completed_path_invariant (C : Nat) (szf : String → Nat) (resume : Bool)
    (df0 : DataFile) (hinit : CompletedPathInv df0) (s : RunState)
    (hs : RunReachable C szf resume df0 s) :
    CompletedPathInv s.dataFile := by
  induction hs with
  | refl => exact hinit
  | tail hsteps step ih =>
    cases step with
    | start id rest now hq hlen =>
      exact updateFileStatus_completedPathInv now _ id .inProgress none none ih
        (fun h => DownloadStatus.noConfusion h)
    | finish id o hmem hpath =>
      cases o with
      | success now p =>
        exact updateFileStatus_completedPathInv now _ id .completed (some p) none ih
          (fun _ => hpath)
      | failure now msg =>
        exact updateFileStatus_completedPathInv now _ id .failed none (some msg) ih
          (fun h => DownloadStatus.noConfusion h)
      | successThenSaveFail now1 p now2 msg =>
        exact updateFileStatus_completedPathInv now2 _ id .failed none (some msg)
          (updateFileStatus_completedPathInv now1 _ id .completed (some p) none ih
            (fun _ => hpath))
          (fun h => DownloadStatus.noConfusion h)
      | failureThenSaveFail now1 msg1 now2 msg2 =>
        exact updateFileStatus_completedPathInv now2 _ id .failed none (some msg2)
          (updateFileStatus_completedPathInv now1 _ id .failed none (some msg1) ih
            (fun h => DownloadStatus.noConfusion h))
          (fun h => DownloadStatus.noConfusion h)

/-- Witness for the amended C5: the invariant evaluated at a concrete
completed entry of a concrete initial state. -/
theorem run_completed_path_invariant_witness :
    truthyStr c5completed.downloadPath = true :=
  run_completed_path_invariant 3 (fun _ => 100) false c5dfC
    (by
      intro f hf hcomp
      have hfe : f = c5completed := by simpa [c5dfC, exDataFile] using hf
      subst hfe
      decide)
    (initRun false c5dfC) Relation.ReflTransGen.refl c5completed (by decide) (by decide)

/-! ### Statistics recomputation (claim C2) -/

theorem foldl_add_size (l : List FileEntry) (n : Nat) :
    l.foldl (fun sum file => sum + file.size) n = n + (l.map (fun f => f.size)).sum := by
  induction l generalizing n with
  | nil => simp
  | cons f t ih => simp [ih, Nat.add_assoc]

/-- Claim C2: a snapshot written by `saveDataFile` and then read back by
`loadDataFile` has a statistics block equal to the pure recomputation from
its `files` collection — `totalFiles` is the number of files, `totalSize` the
sum of all sizes, `pendingFiles`/`completedFiles`/`failedFiles` the counts of
the respective statuses, and `totalDownloadedSize` the sum of sizes of
completed files (statistics are recomputed at save time, never trusted as
input: the statistics block of the snapshot passed to `saveDataFile` is
discarded). -/
theorem saved_then_loaded_statistics_recomputed
    (df : DataFile) (saveNow loadNow : String) (basename : List Char) (env : LoadEnv)
    (hsaved : env.fileContent = some (.parsed (saveDataFile saveNow df)))
    (loaded : DataFile)
    (hload : loadDataFile loadNow basename env = .ok loaded) :
    loaded.statistics.totalFiles = loaded.files.length ∧
    loaded.statistics.totalSize = (loaded.files.map (fun f => f.size)).sum ∧
    loaded.statistics.pendingFiles = loaded.files.countP (fun f => f.downloadStatus == .pending) ∧
    loaded.statistics.completedFiles = loaded.files.countP (fun f => f.downloadStatus == .completed) ∧
    loaded.statistics.failedFiles = loaded.files.countP (fun f => f.downloadStatus == .failed) ∧
    loaded.statistics.totalDownloadedSize =
      ((loaded.files.filter (fun f => f.downloadStatus == .completed)).map (fun f => f.size)).sum := by
  simp only [loadDataFile, hsaved] at hload
  have hl : loaded = saveDataFile saveNow df := by
    cases hload
    rfl
  subst hl
  refine ⟨rfl, ?_, ?_, ?_, ?_, ?_⟩
  · simp only [saveDataFile, updateStatistics]
    simpa using foldl_add_size df.files 0
  · simp only [saveDataFile, updateStatistics]
    simp [List.countP_eq_length_filter]
  · simp only [saveDataFile, updateStatistics]
    simp [List.countP_eq_length_filter]
  · simp only [saveDataFile, updateStatistics]
    simp [List.countP_eq_length_filter]
  · simp only [saveDataFile, updateStatistics]
    simpa using foldl_add_size (df.files.filter (fun f => f.downloadStatus == .completed)) 0

/-- Witness for C2 at a concrete snapshot and load environment. -/
theorem saved_then_loaded_statistics_recomputed_witness :
    (saveDataFile "t1" (exDataFile [exFile "g1:10" .completed 100, exFile "g1:11" .pending 50])).statistics.totalFiles =
      (saveDataFile "t1" (exDataFile [exFile "g1:10" .completed 100, exFile "g1:11" .pending 50])).files.length ∧
    (saveDataFile "t1" (exDataFile [exFile "g1:10" .completed 100, exFile "g1:11" .pending 50])).statistics.totalSize =
      ((saveDataFile "t1" (exDataFile [exFile "g1:10" .completed 100, exFile "g1:11" .pending 50])).files.map (fun f => f.size)).sum ∧
    (saveDataFile "t1" (exDataFile [exFile "g1:10" .completed 100, exFile "g1:11" .pending 50])).statistics.pendingFiles =
      (saveDataFile "t1" (exDataFile [exFile "g1:10" .completed 100, exFile "g1:11" .pending 50])).files.countP (fun f => f.downloadStatus == .pending) ∧
    (saveDataFile "t1" (exDataFile [exFile "g1:10" .completed 100, exFile "g1:11" .pending 50])).statistics.completedFiles =
      (saveDataFile "t1" (exDataFile [exFile "g1:10" .completed 100, exFile "g1:11" .pending 50])).files.countP (fun f => f.downloadStatus == .completed) ∧
    (saveDataFile "t1" (exDataFile [exFile "g1:10" .completed 100, exFile "g1:11" .pending 50])).statistics.failedFiles =
      (saveDataFile "t1" (exDataFile [exFile "g1:10" .completed 100, exFile "g1:11" .pending 50])).files.countP (fun f => f.downloadStatus == .failed) ∧
    (saveDataFile "t1" (exDataFile [exFile "g1:10" .completed 100, exFile "g1:11" .pending 50])).statistics.totalDownloadedSize =
      (((saveDataFile "t1" (exDataFile [exFile "g1:10" .completed 100, exFile "g1:11" .pending 50])).files.filter (fun f => f.downloadStatus == .completed)).map (fun f => f.size)).sum :=
  saved_then_loaded_statistics_recomputed
    (exDataFile [exFile "g1:10" .completed 100, exFile "g1:11" .pending 50]) "t1" "t2" []
    { fileContent := some (.parsed (saveDataFile "t1" (exDataFile [exFile "g1:10" .completed 100, exFile "g1:11" .pending 50])))
      dirListing := none
      backupContent := fun _ => none }
    rfl _ rfl

/-! ### Merge-preserving upsert (claim C3) -/

/-- Claim C3: `upsertFile` on an id already present replaces the stored
record's descriptive fields with the incoming ones while keeping the prior
record's `downloadStatus`, `downloadedAt`, `downloadPath` and `errorMessage`;
an id not present is appended as given. In particular, upserting id
`"g1:10"` with size changed from 100 to 120 over a stored record with
`downloadStatus` completed yields a record with status completed and size
120. -/
theorem upsertFile_merge_preserving (df : DataFile) (file : FileEntry) :
    (∀ i existingFile,
        df.files.findIdx? (fun f => f.id == file.id) = some i →
        df.files[i]? = some existingFile →
        (upsertFile df file).files = df.files.set i
          { file with
              downloadStatus := existingFile.downloadStatus
              downloadedAt := existingFile.downloadedAt
              downloadPath := existingFile.downloadPath
              errorMessage := existingFile.errorMessage }) ∧
    (df.files.findIdx? (fun f => f.id == file.id) = none →
        (upsertFile df file).files = df.files ++ [file]) ∧
    (upsertFile c3df c3incoming).files.map (fun f => (f.size, f.downloadStatus, f.downloadPath)) =
      [(120, DownloadStatus.completed, some "/downloads/file.bin")] := by
  refine ⟨?_, ?_, ?_⟩
  · intro i existingFile hidx hget
    simp only [upsertFile, hidx, hget]
  · intro hidx
    simp only [upsertFile, hidx]
  · decide

/-! ### Retry policy (claim C6) -/

theorem retryLoop_zero (envs : Nat → TransferEnv) (file : FileEntry)
    (groupHandle : String) (config : Configuration) (D M attempt : Nat) :
    retryLoop envs file groupHandle config D M attempt 0 =
      ({ success := false, file := file, downloadPath := none
         error := some (retryFailMessage M) }, attempt - 1, []) := rfl

theorem retryLoop_one (envs : Nat → TransferEnv) (file : FileEntry)
    (groupHandle : String) (config : Configuration) (D M attempt : Nat) :
    retryLoop envs file groupHandle config D M attempt 1 =
      (if (downloadFile (envs attempt) file groupHandle config).result.success = true then
        ((downloadFile (envs attempt) file groupHandle config).result, attempt, [])
      else
        ({ success := false, file := file, downloadPath := none
           error := some (retryFailMessage M) }, attempt, [])) := rfl

theorem retryLoop_step (envs : Nat → TransferEnv) (file : FileEntry)
    (groupHandle : String) (config : Configuration) (D M attempt r : Nat) :
    retryLoop envs file groupHandle config D M attempt (r + 2) =
      (if (downloadFile (envs attempt) file groupHandle config).result.success = true then
        ((downloadFile (envs attempt) file groupHandle config).result, attempt, [])
      else
        ((retryLoop envs file groupHandle config D M (attempt + 1) (r + 1)).1,
          (retryLoop envs file groupHandle config D M (attempt + 1) (r + 1)).2.1,
          D :: (retryLoop envs file groupHandle config D M (attempt + 1) (r + 1)).2.2)) := rfl

theorem retryLoop_first_success (envs : Nat → TransferEnv) (file : FileEntry)
    (groupHandle : String) (config : Configuration) (D M k : Nat)
    (hkM : k ≤ M)
    (hk : (downloadFile (envs k) file groupHandle config).result.success = true) :
    ∀ remaining attempt, attempt + remaining = M + 1 → attempt ≤ k →
    (∀ j, attempt ≤ j → j < k →
      (downloadFile (envs j) file groupHandle config).result.success = false) →
    retryLoop envs file groupHandle config D M attempt remaining =
      ((downloadFile (envs k) file groupHandle config).result, k,
        List.replicate (k - attempt) D) := by
  intro remaining
  induction remaining with
  | zero =>
    intro attempt htot hak _
    omega
  | succ r ih =>
    intro attempt htot hak hfail
    by_cases hek : attempt = k
    · subst hek
      cases r with
      | zero => simp [retryLoop_one, hk, Nat.sub_self]
      | succ r2 => simp [retryLoop_step, hk, Nat.sub_self]
    · have hlt : attempt < k := lt_of_le_of_ne hak hek
      have hf : (downloadFile (envs attempt) file groupHandle config).result.success = false :=
        hfail attempt le_rfl hlt
      cases r with
      | zero => omega
      | succ r2 =>
        have hrec := ih (attempt + 1) (by omega) (by omega)
          (fun j hj1 hj2 => hfail j (by omega) hj2)
        rw [retryLoop_step, if_neg (by simp [hf]), hrec]
        have hcount : k - attempt = (k - (attempt + 1)) + 1 := by omega
        rw [hcount, List.replicate_succ]

theorem retryLoop_all_fail (envs : Nat → TransferEnv) (file : FileEntry)
    (groupHandle : String) (config : Configuration) (D M : Nat) :
    ∀ remaining attempt, attempt + remaining = M + 1 → 1 ≤ remaining →
    (∀ j, attempt ≤ j → j ≤ M →
      (downloadFile (envs j) file groupHandle config).result.success = false) →
    retryLoop envs file groupHandle config D M attempt remaining =
      ({ success := false, file := file, downloadPath := none
         error := some (retryFailMessage M) }, M, List.replicate (M - attempt) D) := by
  intro remaining
  induction remaining with
  | zero =>
    intro attempt _ h1 _
    omega
  | succ r ih =>
    intro attempt htot _ hfail
    have hf : (downloadFile (envs attempt) file groupHandle config).result.success = false :=
      hfail attempt le_rfl (by omega)
    cases r with
    | zero =>
      have ha : attempt = M := by omega
      subst ha
      rw [retryLoop_one, if_neg (by simp [hf]), Nat.sub_self]
      rfl
    | succ r2 =>
      have hrec := ih (attempt + 1) (by omega) (by omega)
        (fun j hj1 hj2 => hfail j (by omega) hj2)
      rw [retryLoop_step, if_neg (by simp [hf]), hrec]
      have hcount : M - attempt = (M - (attempt + 1)) + 1 := by omega
      rw [hcount, List.replicate_succ]

theorem retryLoop_attempts_le (envs : Nat → TransferEnv) (file : FileEntry)
    (groupHandle : String) (config : Configuration) (D M : Nat) :
    ∀ remaining attempt, attempt + remaining = M + 1 →
    (retryLoop envs file groupHandle config D M attempt remaining).2.1 ≤ M := by
  intro remaining
  induction remaining with
  | zero =>
    intro attempt htot
    rw [retryLoop_zero]
    show attempt - 1 ≤ M
    omega
  | succ r ih =>
    intro attempt htot
    by_cases hs : (downloadFile (envs attempt) file groupHandle config).result.success = true
    · cases r with
      | zero =>
        rw [retryLoop_one, if_pos hs]
        show attempt ≤ M
        omega
      | succ r2 =>
        rw [retryLoop_step, if_pos hs]
        show attempt ≤ M
        omega
    · have hf : (downloadFile (envs attempt) file groupHandle config).result.success = false := by
        simpa using hs
      cases r with
      | zero =>
        rw [retryLoop_one, if_neg (by simp [hf])]
        show attempt ≤ M
        omega
      | succ r2 =>
        have hrec := ih (attempt + 1) (by omega)
        rw [retryLoop_step, if_neg (by simp [hf])]
        exact hrec

theorem jsOrNat_pos (x : Option Nat) (d : Nat) (hd : 1 ≤ d) : 1 ≤ jsOrNat x d := by
  cases x with
  | none => simpa [jsOrNat]
  | some v =>
    by_cases h : v = 0
    · simpa [jsOrNat, h]
    · simp only [jsOrNat]
      rw [if_neg h]
      omega

/-- Claim C6: `downloadFileWithRetry` performs at most
`retryAttempts || 3` transfer attempts with a fixed `retryDelay || 5000`
millisecond sleep between consecutive attempts; the first successful attempt
is returned immediately, no delay follows the final attempt (`k` attempts
sleep exactly `k - 1` delays), the function is total (never throws), and when
every attempt fails it returns a failure result whose message states the
attempt count. -/
theorem downloadFileWithRetry_policy (envs : Nat → TransferEnv) (file : FileEntry)
    (groupHandle : String) (config : Configuration) :
    ((downloadFileWithRetry envs file groupHandle config).2.1 ≤ runRetryAttempts config) ∧
    (∀ k, 1 ≤ k → k ≤ runRetryAttempts config →
      (∀ j, 1 ≤ j → j < k →
        (downloadFile (envs j) file groupHandle config).result.success = false) →
      (downloadFile (envs k) file groupHandle config).result.success = true →
      downloadFileWithRetry envs file groupHandle config =
        ((downloadFile (envs k) file groupHandle config).result, k,
          List.replicate (k - 1) (runRetryDelay config))) ∧
    ((∀ j, 1 ≤ j → j ≤ runRetryAttempts config →
        (downloadFile (envs j) file groupHandle config).result.success = false) →
      downloadFileWithRetry envs file groupHandle config =
        ({ success := false, file := file, downloadPath := none
           error := some (retryFailMessage (runRetryAttempts config)) },
          runRetryAttempts config,
          List.replicate (runRetryAttempts config - 1) (runRetryDelay config))) ∧
    (config.download = none → runRetryAttempts config = 3 ∧ runRetryDelay config = 5000) := by
  refine ⟨?_, ?_, ?_, ?_⟩
  · show (retryLoop envs file groupHandle config (runRetryDelay config)
      (runRetryAttempts config) 1 (runRetryAttempts config)).2.1 ≤ runRetryAttempts config
    exact retryLoop_attempts_le envs file groupHandle config (runRetryDelay config)
      (runRetryAttempts config) (runRetryAttempts config) 1 (by omega)
  · intro k hk1 hkM hfail hk
    show retryLoop envs file groupHandle config (runRetryDelay config)
      (runRetryAttempts config) 1 (runRetryAttempts config) = _
    rw [retryLoop_first_success envs file groupHandle config (runRetryDelay config)
      (runRetryAttempts config) k hkM hk (runRetryAttempts config) 1 (by omega) hk1
      (fun j hj1 hj2 => hfail j hj1 hj2)]
  · intro hfail
    show retryLoop envs file groupHandle config (runRetryDelay config)
      (runRetryAttempts config) 1 (runRetryAttempts config) = _
    rw [retryLoop_all_fail envs file groupHandle config (runRetryDelay config)
      (runRetryAttempts config) (runRetryAttempts config) 1 (by omega)
      (jsOrNat_pos (config.download.bind (fun d => d.retryAttempts)) 3 (by omega))
      (fun j hj1 hj2 => hfail j hj1 hj2)]
  · intro h
    simp [runRetryAttempts, runRetryDelay, jsOrNat, h]

/-- Witness for C6: with failure on attempt 1 and success on attempt 2 under
the default configuration, the wrapper returns the attempt-2 result after one
5000 ms delay. -/
theorem downloadFileWithRetry_policy_witness :
    downloadFileWithRetry c6envs (exFile "g1:10" .pending 100) "grp" ⟨none⟩ =
      ((downloadFile (c6envs 2) (exFile "g1:10" .pending 100) "grp" ⟨none⟩).result, 2,
        List.replicate 1 (runRetryDelay ⟨none⟩)) :=
  (downloadFileWithRetry_policy c6envs (exFile "g1:10" .pending 100) "grp" ⟨none⟩).2.1 2
    (by omega) (by decide)
    (fun j hj1 hj2 => by
      have hj : j = 1 := by omega
      subst hj
      decide)
    (by decide)

/-! ### Size-mismatch failure (claim C7) -/

/-- Claim C7: a transfer attempt whose written byte count differs from the
declared `file.size` returns a failure whose thrown error has code
`SIZE_MISMATCH` and whose message names both the written and the expected
size; the attempt does not create the final path, and the `.part` temp file
no longer exists after the attempt (best-effort deleted before the failure is
returned). -/
theorem downloadFile_size_mismatch (env : TransferEnv) (file : FileEntry)
    (groupHandle : String) (config : Configuration) (written : Nat)
    (hskip : (!truthyBool (config.download.bind (fun d => d.overwriteExisting)) &&
      env.finalExists) = false)
    (hent : env.entityFound = true) (hmsg : env.messageFound = true)
    (hdoc : env.isDocument = true) (hbuf : env.buffer = some written)
    (hne : written ≠ file.size) :
    downloadFile env file groupHandle config =
      { result := { success := false, file := file, downloadPath := none
                    error := some ("Downloaded size (" ++ toString written ++
                      ") does not match expected size (" ++ toString file.size ++
                      ") for file " ++ file.id) }
        thrownCode := some "SIZE_MISMATCH"
        tempExistsAfter := false
        finalCreatedByAttempt := false } := by
  simp [downloadFile, hskip, hent, hmsg, hdoc, hbuf, hne, failureOutcome, sizeMismatchMessage]

/-- Witness for C7: 50 bytes written for a job declaring 100. -/
theorem downloadFile_size_mismatch_witness :
    downloadFile c7env (exFile "g1:10" .pending 100) "grp" ⟨none⟩ =
      { result := { success := false, file := exFile "g1:10" .pending 100
                    downloadPath := none
                    error := some ("Downloaded size (" ++ toString 50 ++
                      ") does not match expected size (" ++
                      toString (exFile "g1:10" .pending 100).size ++
                      ") for file " ++ (exFile "g1:10" .pending 100).id) }
        thrownCode := some "SIZE_MISMATCH"
        tempExistsAfter := false
        finalCreatedByAttempt := false } :=
  downloadFile_size_mismatch c7env (exFile "g1:10" .pending 100) "grp" ⟨none⟩ 50
    (by decide) (by decide) (by decide) (by decide) (by decide) (by decide)

/-! ### Persistence failures during the run (claim C4) -/

/-- Counterexample to C4: a `saveDataFile` failure during the per-transition
save inside `downloadSingleFile` does not propagate; the job-level catch
swallows it, marks the job failed with the save error message, and the call
returns normally. -/
theorem save_failure_swallowed_counterexample :
    downloadSingleFile c4env (exFile "g1:10" .pending 100) c4df initialStats =
      .ok (updateFileStatus "t3"
            (updateFileStatus "t1" c4df "g1:10" .inProgress none none)
            "g1:10" .failed none (some "ENOSPC: no space left on device"),
          { initialStats with failed := 1 }) := rfl

/-- Amended C4: only the final `saveDataFile` in `start()` is fatal to the
run; a save failure inside `downloadSingleFile` (either per-transition save)
is caught by the per-job handler and recorded as that job's failure, and
`downloadSingleFile` never propagates any error. -/
theorem save_failure_handling :
    (∀ env file dataFile stats e, env.save1 = .error e →
      downloadSingleFile env file dataFile stats =
        .ok (updateFileStatus env.nowCatch
              (updateFileStatus env.nowStart dataFile file.id .inProgress none none)
              file.id .failed none (some e),
            { stats with failed := stats.failed + 1 })) ∧
    (∀ env file dataFile stats, ∃ out,
      downloadSingleFile env file dataFile stats = .ok out) ∧
    (∀ stats e, startFinalSave (.error e) stats = .error e) := by
  refine ⟨?_, ?_, ?_⟩
  · intro env file dataFile stats e h
    simp [downloadSingleFile, h]
  · intro env file dataFile stats
    unfold downloadSingleFile
    cases h1 : env.save1 with
    | error e => exact ⟨_, rfl⟩
    | ok u =>
      cases h2 : env.result with
      | error e => exact ⟨_, rfl⟩
      | ok r =>
        cases h3 : env.save2 with
        | error e => exact ⟨_, rfl⟩
        | ok u2 => exact ⟨_, rfl⟩
  · intro stats e
    rfl

/-- Witness for the amended C4 at the concrete environment of the
counterexample plus a failing final save. -/
theorem save_failure_handling_witness :
    downloadSingleFile c4env (exFile "g1:10" .pending 100) c4df initialStats =
      .ok (updateFileStatus c4env.nowCatch
            (updateFileStatus c4env.nowStart c4df "g1:10" .inProgress none none)
            "g1:10" .failed none (some "ENOSPC: no space left on device"),
          { initialStats with failed := initialStats.failed + 1 }) ∧
    startFinalSave (.error "EACCES: permission denied") initialStats =
      .error "EACCES: permission denied" :=
  ⟨save_failure_handling.1 c4env (exFile "g1:10" .pending 100) c4df initialStats
      "ENOSPC: no space left on device" rfl,
    save_failure_handling.2.2 initialStats "EACCES: permission denied"⟩

/-! ### Skipped counter and idempotent skip (claim C10) -/

/-- Claim C10: the `skipped` field of the run stats is never incremented (it
stays 0 for every reachable state of every run); a job whose final path
already exists with overwriting disabled yields a success outcome with no
transfer (no temp write, no final-path creation), and every success outcome
is counted in `completed` with the job's full declared size credited to
`downloadedSize`. -/
theorem run_skipped_always_zero :
    (∀ C szf resume df0 s, RunReachable C szf resume df0 s → s.stats.skipped = 0) ∧
    (∀ env file groupHandle config,
      truthyBool (config.download.bind (fun d => d.overwriteExisting)) = false →
      env.finalExists = true →
      downloadFile env file groupHandle config =
        { result := { success := true, file := file
                      downloadPath := some (downloadOutputPath config file groupHandle)
                      error := none }
          thrownCode := none, tempExistsAfter := false
          finalCreatedByAttempt := false }) ∧
    (∀ env file dataFile stats r,
      env.save1 = .ok () → env.result = .ok r → r.success = true → env.save2 = .ok () →
      downloadSingleFile env file dataFile stats =
        .ok (updateFileStatus env.nowOutcome
              (updateFileStatus env.nowStart dataFile file.id .inProgress none none)
              file.id .completed r.downloadPath none,
            { stats with completed := stats.completed + 1
                         downloadedSize := stats.downloadedSize + file.size })) := by
  refine ⟨?_, ?_, ?_⟩
  · intro C szf resume df0 s h
    induction h with
    | refl => rfl
    | tail hsteps step ih =>
      cases step with
      | start id rest now hq hlen => exact ih
      | finish id o hmem hpath =>
        cases o <;> simpa [bumpStats] using ih
  · intro env file groupHandle config hover hex
    simp [downloadFile, hover, hex]
  · intro env file dataFile stats r h1 h2 hsucc h3
    simp [downloadSingleFile, h1, h2, hsucc, h3]

/-- Witness for C10 at a concrete run state and a concrete skip attempt. -/
theorem run_skipped_always_zero_witness :
    (initRun false c4df).stats.skipped = 0 ∧
    downloadFile { okTransferEnv with finalExists := true }
        (exFile "g1:10" .pending 100) "grp" ⟨none⟩ =
      { result := { success := true, file := exFile "g1:10" .pending 100
                    downloadPath := some (downloadOutputPath ⟨none⟩
                      (exFile "g1:10" .pending 100) "grp")
                    error := none }
        thrownCode := none, tempExistsAfter := false
        finalCreatedByAttempt := false } :=
  ⟨run_skipped_always_zero.1 3 (fun _ => 100) false c4df (initRun false c4df)
      Relation.ReflTransGen.refl,
    run_skipped_always_zero.2.1 { okTransferEnv with finalExists := true }
      (exFile "g1:10" .pending 100) "grp" ⟨none⟩ rfl rfl⟩

/-! ### Base64 and split lemmas (claim C8) -/

theorem b64Chars_length : b64Chars.length = 64 := rfl

theorem b64Index_b64Char_fin : ∀ i : Fin 64, b64Index (b64Char i.val) = i.val := by decide

theorem b64Index_b64Char_of_lt (n : Nat) (h : n < 64) : b64Index (b64Char n) = n :=
  b64Index_b64Char_fin ⟨n, h⟩

theorem b64Char_ne_eq (n : Nat) : b64Char n ≠ '=' := by
  by_cases h : n < 64
  · exact (by decide : ∀ i : Fin 64, b64Char i.val ≠ '=') ⟨n, h⟩
  · unfold b64Char
    rw [List.getD_eq_default _ _ (by rw [b64Chars_length]; omega)]
    decide

theorem b64Char_ne_colon (n : Nat) : b64Char n ≠ ':' := by
  by_cases h : n < 64
  · exact (by decide : ∀ i : Fin 64, b64Char i.val ≠ ':') ⟨n, h⟩
  · unfold b64Char
    rw [List.getD_eq_default _ _ (by rw [b64Chars_length]; omega)]
    decide

theorem b64Encode_no_colon : ∀ bs, ∀ c ∈ b64Encode bs, c ≠ ':'
  | [] => by simp [b64Encode]
  | [b1] => by
    intro c hc
    simp only [b64Encode, List.mem_cons, List.not_mem_nil, or_false] at hc
    rcases hc with rfl | rfl | rfl | rfl
    · exact b64Char_ne_colon _
    · exact b64Char_ne_colon _
    · decide
    · decide
  | [b1, b2] => by
    intro c hc
    simp only [b64Encode, List.mem_cons, List.not_mem_nil, or_false] at hc
    rcases hc with rfl | rfl | rfl | rfl
    · exact b64Char_ne_colon _
    · exact b64Char_ne_colon _
    · exact b64Char_ne_colon _
    · decide
  | b1 :: b2 :: b3 :: rest => by
    intro c hc
    simp only [b64Encode, List.mem_cons] at hc
    rcases hc with rfl | rfl | rfl | rfl | hc
    · exact b64Char_ne_colon _
    · exact b64Char_ne_colon _
    · exact b64Char_ne_colon _
    · exact b64Char_ne_colon _
    · exact b64Encode_no_colon rest c hc

theorem splitOnColon_ne_nil : ∀ s, splitOnColon s ≠ [] := by
  intro s
  cases s with
  | nil => simp [splitOnColon]
  | cons c rest =>
    simp only [splitOnColon]
    cases splitOnColon rest with
    | nil => by_cases h : c = ':' <;> simp [h]
    | cons p ps => by_cases h : c = ':' <;> simp [h]

theorem splitOnColon_no_colon : ∀ s, (∀ c ∈ s, c ≠ ':') → splitOnColon s = [s] := by
  intro s
  induction s with
  | nil => intro _; rfl
  | cons c rest ih =>
    intro h
    have hc : c ≠ ':' := h c (by simp)
    have hr : splitOnColon rest = [rest] := ih (fun x hx => h x (by simp [hx]))
    simp only [splitOnColon, hr]
    rw [if_neg hc]

theorem splitOnColon_append : ∀ s t, (∀ c ∈ s, c ≠ ':') →
    splitOnColon (s ++ ':' :: t) = s :: splitOnColon t := by
  intro s
  induction s with
  | nil =>
    intro t _
    show splitOnColon (':' :: t) = [] :: splitOnColon t
    simp only [splitOnColon]
    cases hr : splitOnColon t with
    | nil => exact absurd hr (splitOnColon_ne_nil t)
    | cons p ps => simp
  | cons c rest ih =>
    intro t h
    have hc : c ≠ ':' := h c (by simp)
    have hr := ih t (fun x hx => h x (by simp [hx]))
    show splitOnColon (c :: (rest ++ ':' :: t)) = (c :: rest) :: splitOnColon t
    simp only [splitOnColon, hr]
    rw [if_neg hc]

theorem b64_roundtrip : ∀ bs, (∀ b ∈ bs, b < 256) → b64Decode (b64Encode bs) = bs
  | [] => fun _ => rfl
  | [b1] => fun h => by
    have h1 : b1 < 256 := h b1 (by simp)
    show b64Decode [b64Char (b1 / 4), b64Char (b1 % 4 * 16), '=', '='] = [b1]
    rw [show b64Decode [b64Char (b1 / 4), b64Char (b1 % 4 * 16), '=', '='] =
        [b64Index (b64Char (b1 / 4)) * 4 + b64Index (b64Char (b1 % 4 * 16)) / 16] from by
      simp [b64Decode]]
    rw [b64Index_b64Char_of_lt _ (by omega), b64Index_b64Char_of_lt _ (by omega)]
    rw [show b1 / 4 * 4 + b1 % 4 * 16 / 16 = b1 by omega]
  | [b1, b2] => fun h => by
    have h1 : b1 < 256 := h b1 (by simp)
    have h2 : b2 < 256 := h b2 (by simp)
    show b64Decode [b64Char (b1 / 4), b64Char (b1 % 4 * 16 + b2 / 16),
      b64Char (b2 % 16 * 4), '='] = [b1, b2]
    rw [show b64Decode [b64Char (b1 / 4), b64Char (b1 % 4 * 16 + b2 / 16),
        b64Char (b2 % 16 * 4), '='] =
        [b64Index (b64Char (b1 / 4)) * 4 + b64Index (b64Char (b1 % 4 * 16 + b2 / 16)) / 16,
          b64Index (b64Char (b1 % 4 * 16 + b2 / 16)) % 16 * 16 +
            b64Index (b64Char (b2 % 16 * 4)) / 4] from by
      simp [b64Decode, b64Char_ne_eq]]
    rw [b64Index_b64Char_of_lt _ (by omega), b64Index_b64Char_of_lt _ (by omega),
      b64Index_b64Char_of_lt _ (by omega)]
    rw [show b1 / 4 * 4 + (b1 % 4 * 16 + b2 / 16) / 16 = b1 by omega,
      show (b1 % 4 * 16 + b2 / 16) % 16 * 16 + b2 % 16 * 4 / 4 = b2 by omega]
  | b1 :: b2 :: b3 :: rest => fun h => by
    have h1 : b1 < 256 := h b1 (by simp)
    have h2 : b2 < 256 := h b2 (by simp)
    have h3 : b3 < 256 := h b3 (by simp)
    have ih := b64_roundtrip rest (fun b hb => h b (by simp [hb]))
    show b64Decode (b64Char (b1 / 4) :: b64Char (b1 % 4 * 16 + b2 / 16) ::
      b64Char (b2 % 16 * 4 + b3 / 64) :: b64Char (b3 % 64) :: b64Encode rest) =
      b1 :: b2 :: b3 :: rest
    rw [show b64Decode (b64Char (b1 / 4) :: b64Char (b1 % 4 * 16 + b2 / 16) ::
        b64Char (b2 % 16 * 4 + b3 / 64) :: b64Char (b3 % 64) :: b64Encode rest) =
        (b64Index (b64Char (b1 / 4)) * 4 +
            b64Index (b64Char (b1 % 4 * 16 + b2 / 16)) / 16) ::
          (b64Index (b64Char (b1 % 4 * 16 + b2 / 16)) % 16 * 16 +
            b64Index (b64Char (b2 % 16 * 4 + b3 / 64)) / 4) ::
          (b64Index (b64Char (b2 % 16 * 4 + b3 / 64)) % 4 * 64 +
            b64Index (b64Char (b3 % 64))) :: b64Decode (b64Encode rest) from by
      simp [b64Decode, b64Char_ne_eq]]
    rw [ih, b64Index_b64Char_of_lt _ (by omega), b64Index_b64Char_of_lt _ (by omega),
      b64Index_b64Char_of_lt _ (by omega), b64Index_b64Char_of_lt _ (by omega)]
    rw [show b1 / 4 * 4 + (b1 % 4 * 16 + b2 / 16) / 16 = b1 by omega,
      show (b1 % 4 * 16 + b2 / 16) % 16 * 16 + (b2 % 16 * 4 + b3 / 64) / 4 = b2 by omega,
      show (b2 % 16 * 4 + b3 / 64) % 4 * 64 + b3 % 64 = b3 by omega]

/-! ### Text-to-bytes codec and tag lemmas (claim C8) -/

theorem char_toNat_lt (c : Char) : c.toNat < 1114112 := by
  have := c.valid
  simp [Char.toNat] at *
  rcases this with h | h <;> omega

theorem strBytes_lt : ∀ s, ∀ b ∈ strBytes s, b < 256 := by
  intro s
  induction s with
  | nil => simp [strBytes]
  | cons c rest ih =>
    intro b hb
    rcases List.mem_append.mp hb with hb | hb
    · have hc := char_toNat_lt c
      simp only [charToBytes, List.mem_cons, List.not_mem_nil, or_false] at hb
      rcases hb with rfl | rfl | rfl <;> omega
    · exact ih b hb

theorem bytesChars_strBytes : ∀ s, bytesChars (strBytes s) = s
  | [] => rfl
  | c :: rest => by
    have ih := bytesChars_strBytes rest
    show bytesChars ((c.toNat / 65536) :: (c.toNat / 256 % 256) ::
      (c.toNat % 256) :: strBytes rest) = c :: rest
    show Char.ofNat (c.toNat / 65536 * 65536 + c.toNat / 256 % 256 * 256 + c.toNat % 256) ::
      bytesChars (strBytes rest) = c :: rest
    rw [ih, show c.toNat / 65536 * 65536 + c.toNat / 256 % 256 * 256 + c.toNat % 256 =
      c.toNat by omega, Char.ofNat_toNat]

theorem strBytes_injective (s t : List Char) (h : strBytes s = strBytes t) : s = t := by
  have := congrArg bytesChars h
  rwa [bytesChars_strBytes, bytesChars_strBytes] at this

theorem gcmTag_bytes_lt (k : String) (iv ct : List Nat) (hiv : ∀ b ∈ iv, b < 256)
    (hct : ∀ b ∈ ct, b < 256) : ∀ b ∈ gcmTag k iv ct, b < 256 := by
  intro b hb
  unfold gcmTag at hb
  rcases List.mem_append.mp hb with hb | hb
  · rcases List.mem_append.mp hb with hb | hb
    · exact strBytes_lt k.data b hb
    · exact hiv b hb
  · exact hct b hb

theorem gcmTag_key_injective (k k2 : String) (iv ct : List Nat)
    (h : gcmTag k iv ct = gcmTag k2 iv ct) : k = k2 := by
  unfold gcmTag at h
  have h2 := List.append_cancel_right (List.append_cancel_right h)
  have h3 := strBytes_injective _ _ h2
  cases k
  cases k2
  exact congrArg String.mk h3

/-! ### Encrypt/decrypt properties (claim C8) -/

theorem encrypt_splits (data : List Char) (password : Option String) (iv : List Nat) :
    splitOnColon (encrypt data password iv) =
      [b64Encode iv,
        b64Encode (gcmTag (deriveKey password) iv (gcmCipherBytes data)),
        b64Encode (gcmCipherBytes data)] := by
  unfold encrypt
  rw [splitOnColon_append _ _ (b64Encode_no_colon iv),
    splitOnColon_append _ _ (b64Encode_no_colon _),
    splitOnColon_no_colon _ (b64Encode_no_colon _)]

theorem decrypt_encrypt (data : List Char) (password : Option String) (iv : List Nat)
    (hiv : ∀ b ∈ iv, b < 256) :
    decrypt (encrypt data password iv) password = .ok data := by
  unfold decrypt
  rw [encrypt_splits data password iv]
  simp only [gcmCipherBytes]
  rw [b64_roundtrip iv hiv,
    b64_roundtrip _ (gcmTag_bytes_lt _ iv _ hiv (strBytes_lt data)),
    b64_roundtrip _ (strBytes_lt data)]
  rw [if_pos rfl, bytesChars_strBytes]

theorem decrypt_wrong_password (data : List Char) (p q : String) (iv : List Nat)
    (hiv : ∀ b ∈ iv, b < 256) (hp : p ≠ "") (hq : q ≠ "") (hpq : p ≠ q) :
    decrypt (encrypt data (some p) iv) (some q) = .error .authenticationFailure := by
  unfold decrypt
  rw [encrypt_splits data (some p) iv]
  simp only [gcmCipherBytes]
  rw [b64_roundtrip iv hiv,
    b64_roundtrip _ (gcmTag_bytes_lt _ iv _ hiv (strBytes_lt data)),
    b64_roundtrip _ (strBytes_lt data)]
  rw [if_neg]
  intro h
  have hk := gcmTag_key_injective _ _ _ _ h
  have hkp : deriveKey (some p) = p := by simp [deriveKey, keyMaterial, jsOrStr, hp]
  have hkq : deriveKey (some q) = q := by simp [deriveKey, keyMaterial, jsOrStr, hq]
  rw [hkp, hkq] at hk
  exact hpq (hk.symm ▸ rfl)

theorem decrypt_corrupted_tag (data : List Char) (password : Option String)
    (iv : List Nat) (tagSeg : List Char) (hiv : ∀ b ∈ iv, b < 256)
    (hseg : ∀ c ∈ tagSeg, c ≠ ':')
    (hne : b64Decode tagSeg ≠ gcmTag (deriveKey password) iv (gcmCipherBytes data)) :
    decrypt (b64Encode iv ++ ':' :: (tagSeg ++ ':' :: b64Encode (gcmCipherBytes data)))
      password = .error .authenticationFailure := by
  have hne2 : b64Decode tagSeg ≠ gcmTag (deriveKey password) iv (strBytes data) := hne
  unfold decrypt
  rw [splitOnColon_append _ _ (b64Encode_no_colon iv),
    splitOnColon_append _ _ hseg,
    splitOnColon_no_colon _ (b64Encode_no_colon _)]
  simp only [gcmCipherBytes]
  rw [b64_roundtrip iv hiv, b64_roundtrip _ (strBytes_lt data)]
  rw [if_neg hne2]

theorem decrypt_malformed (s : List Char) (password : Option String)
    (h : (splitOnColon s).length ≠ 3) :
    decrypt s password = .error .malformedCiphertext := by
  unfold decrypt
  rcases hsp : splitOnColon s with _ | ⟨a, _ | ⟨b, _ | ⟨c, _ | ⟨d, rest⟩⟩⟩⟩
  · rfl
  · rfl
  · rfl
  · exact absurd (by rw [hsp]; rfl) h
  · rfl

/-- Claim C8: for every plaintext and passphrase,
`decrypt(encrypt(plaintext, pw), pw) = plaintext`, and encrypt's output
splits on `':'` into exactly three parts; decrypting with a different
passphrase, or with a corrupted authTag segment, fails with an
authentication error rather than returning corrupted plaintext; and an input
that does not split into exactly three `':'`-separated parts is rejected
with a format error. Keys are derived by PBKDF2, modelled as an ideal
(injective) KDF, and AES-256-GCM is modelled as an ideal AEAD whose tag
authenticates key, iv and ciphertext; `iv` ranges over byte lists, modelling
`crypto.randomBytes(16)`. -/
theorem encrypt_decrypt_properties :
    (∀ data password iv, (∀ b ∈ iv, b < 256) →
      decrypt (encrypt data password iv) password = .ok data ∧
      (splitOnColon (encrypt data password iv)).length = 3) ∧
    (∀ data p q iv, (∀ b ∈ iv, b < 256) → p ≠ "" → q ≠ "" → p ≠ q →
      decrypt (encrypt data (some p) iv) (some q) = .error .authenticationFailure) ∧
    (∀ data password iv tagSeg, (∀ b ∈ iv, b < 256) → (∀ c ∈ tagSeg, c ≠ ':') →
      b64Decode tagSeg ≠ gcmTag (deriveKey password) iv (gcmCipherBytes data) →
      decrypt (b64Encode iv ++ ':' :: (tagSeg ++ ':' :: b64Encode (gcmCipherBytes data)))
        password = .error .authenticationFailure) ∧
    (∀ s password, (splitOnColon s).length ≠ 3 →
      decrypt s password = .error .malformedCiphertext) := by
  refine ⟨?_, ?_, ?_, ?_⟩
  · intro data password iv hiv
    exact ⟨decrypt_encrypt data password iv hiv, by rw [encrypt_splits]; rfl⟩
  · exact decrypt_wrong_password
  · exact decrypt_corrupted_tag
  · exact decrypt_malformed

/-- Witness for C8 at concrete plaintexts, passphrases, ivs and segments. -/
theorem encrypt_decrypt_properties_witness :
    (decrypt (encrypt ("hello world").data (some "pw") [0, 1, 2, 3, 4, 5, 6, 7, 8, 9,
        10, 11, 12, 13, 14, 15]) (some "pw") = .ok ("hello world").data ∧
      (splitOnColon (encrypt ("hello world").data (some "pw") [0, 1, 2, 3, 4, 5, 6, 7,
        8, 9, 10, 11, 12, 13, 14, 15])).length = 3) ∧
    decrypt (encrypt ("secret").data (some "alpha") [255]) (some "beta") =
      .error .authenticationFailure ∧
    decrypt (b64Encode [255] ++ ':' :: (("AAAA").data ++ ':' ::
        b64Encode (gcmCipherBytes ("secret").data))) (some "pw") =
      .error .authenticationFailure ∧
    decrypt ("no-colons-here").data (some "pw") = .error .malformedCiphertext := by
  refine ⟨?_, ?_, ?_, ?_⟩
  · exact encrypt_decrypt_properties.1 ("hello world").data (some "pw")
      [0, 1, 2, 3, 4, 5, 6, 7, 8, 9, 10, 11, 12, 13, 14, 15] (by decide)
  · exact encrypt_decrypt_properties.2.1 ("secret").data "alpha" "beta" [255]
      (by decide) (by decide) (by decide) (by decide)
  · exact encrypt_decrypt_properties.2.2.1 ("secret").data (some "pw") [255]
      ("AAAA").data (by decide) (by decide) (by decide)
  · exact encrypt_decrypt_properties.2.2.2 ("no-colons-here").data (some "pw") (by decide)

/-! ### Lexicographic order lemmas (claim C9) -/

theorem lexLe_refl (a : List Char) : lexLe a a = true := by
  induction a with
  | nil => rfl
  | cons c cs ih => simp [lexLe, lt_irrefl, ih]

theorem lexLe_total (a b : List Char) : lexLe a b = true ∨ lexLe b a = true := by
  induction a generalizing b with
  | nil => exact Or.inl rfl
  | cons c cs ih =>
    cases b with
    | nil => exact Or.inr rfl
    | cons d ds =>
      rcases lt_trichotomy c d with h | h | h
      · refine Or.inl ?_
        simp only [lexLe]
        rw [if_pos h]
      · subst h
        rcases ih ds with h2 | h2
        · refine Or.inl ?_
          simp only [lexLe]
          rw [if_neg (lt_irrefl c), if_neg (lt_irrefl c)]
          exact h2
        · refine Or.inr ?_
          simp only [lexLe]
          rw [if_neg (lt_irrefl c), if_neg (lt_irrefl c)]
          exact h2
      · refine Or.inr ?_
        simp only [lexLe]
        rw [if_pos h]

theorem lexLe_trans (a b c : List Char) (h1 : lexLe a b = true)
    (h2 : lexLe b c = true) : lexLe a c = true := by
  induction a generalizing b c with
  | nil => rfl
  | cons x xs ih =>
    cases b with
    | nil => exact absurd h1 (by simp [lexLe])
    | cons y ys =>
      cases c with
      | nil => exact absurd h2 (by simp [lexLe])
      | cons z zs =>
        simp only [lexLe] at h1 h2 ⊢
        rcases lt_trichotomy x y with hxy | hxy | hxy
        · rcases lt_trichotomy y z with hyz | hyz | hyz
          · rw [if_pos (lt_trans hxy hyz)]
          · subst hyz
            rw [if_pos hxy]
          · rw [if_neg (lt_asymm hyz), if_pos hyz] at h2
            cases h2
        · subst hxy
          rcases lt_trichotomy x z with hyz | hyz | hyz
          · rw [if_pos hyz]
          · subst hyz
            rw [if_neg (lt_irrefl x), if_neg (lt_irrefl x)] at h1 h2 ⊢
            exact ih ys zs h1 h2
          · rw [if_neg (lt_asymm hyz), if_pos hyz] at h2
            cases h2
        · rw [if_neg (lt_asymm hxy), if_pos hxy] at h1
          cases h1

instance : IsTotal (List Char) (fun a b => lexLe a b = true) := ⟨lexLe_total⟩

instance : IsTrans (List Char) (fun a b => lexLe a b = true) := ⟨lexLe_trans⟩

theorem sorted_getLast?_max : ∀ l : List (List Char),
    l.Pairwise (fun a b => lexLe a b = true) → ∀ b, l.getLast? = some b →
    ∀ x ∈ l, lexLe x b = true := by
  intro l
  induction l with
  | nil =>
    intro _ b hb
    cases hb
  | cons a rest ih =>
    intro hs b hb
    rcases List.pairwise_cons.mp hs with ⟨ha, hrest⟩
    cases rest with
    | nil =>
      have hba : a = b := by simpa using hb
      intro x hx
      have hxa : x = a := by simpa using hx
      rw [hxa, hba]
      exact lexLe_refl b
    | cons c cs =>
      rw [List.getLast?_cons_cons] at hb
      intro x hx
      rcases List.mem_cons.mp hx with rfl | hx2
      · exact ha b (List.mem_of_mem_getLast? hb)
      · exact ih hrest b hb x hx2

/-! ### Backup selection and load recovery (claim C9) -/

theorem findLatestBackup_spec (basename : List Char) (files : List (List Char))
    (hne : files.filter (fun f => strStartsWith f (basename ++ (".backup.").data)) ≠ []) :
    ∃ b, findLatestBackup basename (some files) = some b ∧
      b ∈ files.filter (fun f => strStartsWith f (basename ++ (".backup.").data)) ∧
      ∀ f ∈ files.filter (fun f => strStartsWith f (basename ++ (".backup.").data)),
        lexLe f b = true := by
  set backs := files.filter (fun f => strStartsWith f (basename ++ (".backup.").data))
    with hm
  have hperm : List.Perm (sortFilenames backs) backs :=
    List.perm_insertionSort (fun a b => lexLe a b = true) backs
  have hsne : sortFilenames backs ≠ [] := by
    intro h0
    apply hne
    have hl0 : backs.length = 0 := by
      rw [← hperm.length_eq, h0]
      rfl
    exact List.length_eq_zero.mp hl0
  cases hl : (sortFilenames backs).getLast? with
  | none => exact absurd (List.getLast?_eq_none_iff.mp hl) hsne
  | some b =>
    refine ⟨b, ?_, ?_, ?_⟩
    · show ((sortFilenames backs).reverse).head? = some b
      rw [List.head?_reverse]
      exact hl
    · exact hperm.subset (List.mem_of_mem_getLast? hl)
    · intro f hf
      exact sorted_getLast?_max (sortFilenames backs)
        (List.sorted_insertionSort (fun a b => lexLe a b = true) backs) b hl f
        (hperm.mem_iff.mpr hf)

/-- Claim C9: `loadDataFile` returns a fresh empty snapshot when the file is
absent; when the content is invalid JSON it recovers from the backup whose
name starts with `<basename>.backup.` and is greatest in lexicographic
filename order among the directory entries, returning that backup's parsed
content; and when no such backup exists (no matching entry, or an unreadable
directory) the original parse failure propagates as an error. -/
theorem loadDataFile_recovery :
    (∀ now basename env, env.fileContent = none →
      loadDataFile now basename env = .ok (createDataFile now)) ∧
    (∀ now basename env files,
      env.fileContent = some .invalidJson → env.dirListing = some files →
      files.filter (fun f => strStartsWith f (basename ++ (".backup.").data)) ≠ [] →
      ∃ b, findLatestBackup basename env.dirListing = some b ∧
        b ∈ files.filter (fun f => strStartsWith f (basename ++ (".backup.").data)) ∧
        (∀ f ∈ files.filter (fun f => strStartsWith f (basename ++ (".backup.").data)),
          lexLe f b = true) ∧
        (∀ df, env.backupContent b = some df →
          loadDataFile now basename env = .ok df)) ∧
    (∀ now basename env files,
      env.fileContent = some .invalidJson → env.dirListing = some files →
      files.filter (fun f => strStartsWith f (basename ++ (".backup.").data)) = [] →
      loadDataFile now basename env = .error .syntaxError) ∧
    (∀ now basename env,
      env.fileContent = some .invalidJson → env.dirListing = none →
      loadDataFile now basename env = .error .syntaxError) := by
  refine ⟨?_, ?_, ?_, ?_⟩
  · intro now basename env h
    simp [loadDataFile, h]
  · intro now basename env files hfc hlist hne
    obtain ⟨b, hfb, hbm, hmax⟩ := findLatestBackup_spec basename files hne
    refine ⟨b, by rw [hlist]; exact hfb, hbm, hmax, ?_⟩
    intro df hdf
    simp only [loadDataFile, hfc, hlist, hfb, hdf]
  · intro now basename env files hfc hlist hfil
    have hfb : findLatestBackup basename (some files) = none := by
      show ((sortFilenames (files.filter
        (fun f => strStartsWith f (basename ++ (".backup.").data)))).reverse).head? = none
      rw [hfil]
      rfl
    simp only [loadDataFile, hfc, hlist, hfb]
  · intro now basename env hfc hlist
    simp only [loadDataFile, hfc, hlist, findLatestBackup]

/-- Witness for C9: an absent file yields an empty snapshot, and with an
unparsable primary file the newest backup is selected and its content
returned. -/
theorem loadDataFile_recovery_witness :
    loadDataFile "t0" ("data.json").data { c9env with fileContent := none } =
      .ok (createDataFile "t0") ∧
    (∃ b, findLatestBackup ("data.json").data c9env.dirListing = some b ∧
      b ∈ [c9old, c9good, ("notes.txt").data].filter
        (fun f => strStartsWith f (("data.json").data ++ (".backup.").data)) ∧
      (∀ f ∈ [c9old, c9good, ("notes.txt").data].filter
        (fun f => strStartsWith f (("data.json").data ++ (".backup.").data)),
        lexLe f b = true) ∧
      (∀ df, c9env.backupContent b = some df →
        loadDataFile "t0" ("data.json").data c9env = .ok df)) :=
  ⟨loadDataFile_recovery.1 "t0" ("data.json").data { c9env with fileContent := none } rfl,
    loadDataFile_recovery.2.1 "t0" ("data.json").data c9env
      [c9old, c9good, ("notes.txt").data] rfl rfl (by decide)⟩

/-- Witness for C3: the merge branch applied at the concrete scenario. -/
theorem upsertFile_merge_preserving_witness :
    (upsertFile c3df c3incoming).files = c3df.files.set 0
      { c3incoming with
          downloadStatus := c3stored.downloadStatus
          downloadedAt := c3stored.downloadedAt
          downloadPath := c3stored.downloadPath
          errorMessage := c3stored.errorMessage } :=
  (upsertFile_merge_preserving c3df c3incoming).1 0 c3stored (by decide) (by decide)

end TgFileDownloader
